import Mathlib

/-!
Verification of the mekari-esign-go webhook/document-correlation core.

The Go source is shallowly embedded: stateful code (Redis cache, local
filesystem folders) becomes explicit state passing; outbound HTTP calls
(signing provider, ERP) become environment-supplied outcomes; Go's
`error` returns become `Except String`.  Go `float64` signature sizes and
coordinates are exact small integers in the source, so they are modelled
as `Int`.  JSON (de)serialization of cache values is modelled by a sum
type `RVal`: `json.Marshal` of a typed record stores the corresponding
constructor, and `json.Unmarshal` into a record type succeeds exactly on
that constructor (a raw/legacy string value is `RVal.str`, which fails to
unmarshal as a `DocumentMapping`, as any non-JSON string does in Go).
-/

namespace MekariEsign

/-- Bytes of a document, as in Go `[]byte`. -/
abbrev Bytes := List Nat

/-! ## String helpers (Go `strings` package operations used by the source) -/

/-- `listIsPref p l` : `p` is a prefix of `l` (char lists). -/
def listIsPref : List Char → List Char → Bool
  | [], _ => true
  | _ :: _, [] => false
  | a :: as, b :: bs => a = b && listIsPref as bs

/-- Go `strings.Contains(s, sub)` on char lists: `sub` occurs inside `s`. -/
def listContainsSub : List Char → List Char → Bool
  | s, sub =>
    match s with
    | [] => listIsPref sub []
    | _ :: rest => listIsPref sub s || listContainsSub rest sub

/-- Go `strings.Contains(s, sub)`. -/
def strContains (s sub : String) : Bool :=
  listContainsSub s.data sub.data

/-- Go `strings.HasSuffix(s, sfx)`. -/
def strHasSuffix (s sfx : String) : Bool :=
  listIsPref sfx.data.reverse s.data.reverse

/-- Go `strings.ToLower` (ASCII-level, via `Char.toLower` as in Go for ASCII). -/
def strToLower (s : String) : String :=
  ⟨s.data.map Char.toLower⟩

/-- `lastIndex` from the webhook usecase source: index of the last
occurrence of the character `c` in `l`, scanning from the end. -/
def lastIndexOfChar (l : List Char) (c : Char) : Option Nat :=
  match l with
  | [] => none
  | a :: rest =>
    match lastIndexOfChar rest c with
    | some i => some (i + 1)
    | none => if a = c then some 0 else none

/-- `extractInvoiceNumber` from the webhook usecase source: strips the
extension (everything from the last `.`) and returns the rest. -/
def extractInvoiceNumber (filename : String) : String :=
  match lastIndexOfChar filename.data '.' with
  | some i => ⟨filename.data.take i⟩
  | none => filename

/-! ## Data model (entity structs from `internal/domain/entity`) -/

/-- `entity.StampPosition` (coordinates are exact integers). -/
structure StampPosition where
  x : Int
  y : Int
  width : Int
  height : Int
  page : Int
deriving DecidableEq, Repr

/-- `entity.DocumentDeadline`. -/
structure DocumentDeadline where
  signingDeadline : Int
  recurringReminder : String
  daysReminderAfterReceive : Int
deriving DecidableEq, Repr

/-- `entity.SignaturePosition`. -/
structure SignaturePosition where
  x : Int
  y : Int
  width : Int
  height : Int
  page : Int
deriving DecidableEq, Repr

/-- `entity.SignerRequest`. -/
structure SignerRequest where
  name : String
  email : String
  phone : String
  order : Int
  signPage : Int
  signaturePositions : Option SignaturePosition
  requiresOTP : Bool
deriving DecidableEq, Repr

/-- `entity.GlobalSignRequest`. -/
structure GlobalSignRequest where
  entryNo : Int
  email : String
  invoiceNumber : String
  signing : Bool
  stamping : Bool
  signers : List SignerRequest
  stampPositions : Option StampPosition
  documentDeadline : Option DocumentDeadline
deriving DecidableEq, Repr

/-- `usecase.DocumentMapping` (esign_usecase.go). -/
structure DocumentMapping where
  documentID : String
  email : String
  invoiceNumber : String
  filename : String
  stampPositions : Option StampPosition
  documentDeadline : Option DocumentDeadline
  entryNo : Int
  signing : Bool
  stamping : Bool
deriving DecidableEq, Repr

/-- The Go zero value of `DocumentMapping` (all fields empty/zero). -/
def emptyMapping : DocumentMapping :=
  { documentID := "", email := "", invoiceNumber := "", filename := ""
    stampPositions := none, documentDeadline := none
    entryNo := 0, signing := false, stamping := false }

/-- `entity.NAVSetup`: the three ERP-provided folder paths. -/
structure NAVSetup where
  fileLocationIn : String
  fileLocationProcess : String
  fileLocationOut : String
deriving DecidableEq, Repr

/-- `entity.DocumentInfo` (status snapshot; `UpdatedAt` timestamp omitted —
wall-clock time has no observable effect in the embedded logic). -/
structure DocumentInfo where
  documentID : String
  email : String
  invoiceNumber : String
  filename : String
  signingStatus : String
  stampingStatus : String
  docURL : String
deriving DecidableEq, Repr

/-- `entity.WebhookPayload`, flattened (`Data.ID` and `Data.Attributes`).
The `signers` array is consumed only by the ERP log-entry construction,
which is an outbound call with no observable effect in the model. -/
structure WebhookPayload where
  id : String
  filename : String
  docURL : String
  signingStatus : String
  stampingStatus : String
deriving DecidableEq, Repr

/-- `entity.StampAnnotation` fields populated by `RequestStamping`. -/
structure StampAnnotation where
  page : Int
  positionX : Int
  positionY : Int
  elementWidth : Int
  elementHeight : Int
  canvasWidth : Int
  canvasHeight : Int
  typeOf : String
deriving DecidableEq, Repr

/-- `entity.StampResponse` data used by `RequestStamping`
(`Data.ID`, `Data.Attributes.Status`). -/
structure StampRespData where
  id : String
  status : String
deriving DecidableEq, Repr

/-- `entity.GlobalSignResponse` data used by the sign-request flow
(`Data.ID`, `Data.Attributes.{DocID, Status, Filename}`). -/
structure GlobalSignResponse where
  id : String
  docID : String
  status : String
  filename : String
deriving DecidableEq, Repr

/-- `entity.GlobalSignResult`. -/
structure GlobalSignResult where
  success : Bool
  needAuth : Bool
  redirectURL : String
  message : String
  data : Option GlobalSignResponse
deriving DecidableEq, Repr

/-- OAuth code-check outcome (`oauthUsecase.CheckCode`). -/
structure CodeCheck where
  hasCode : Bool
  redirectURL : String
deriving DecidableEq, Repr

/-! ## Redis cache model

A cache value is a typed sum: `json.Marshal` of a record stores its
constructor; `json.Unmarshal` into a record type succeeds only on the
matching constructor.  `RVal.str` is a raw (legacy / non-JSON) string
value.  Keys with the document prefix only ever hold `.map` or `.str`
values; the `.info` / `.nav` constructors live under their own key
prefixes. -/
inductive RVal where
  | str (s : String)
  | map (m : DocumentMapping)
  | info (d : DocumentInfo)
  | nav (n : NAVSetup)
deriving DecidableEq, Repr

/-- The cache: an association list of key/value pairs. -/
abbrev Cache := List (String × RVal)

def lookupCache : Cache → String → Option RVal
  | [], _ => none
  | (k', v) :: rest, k => if k' = k then some v else lookupCache rest k

def setCacheL : Cache → String → RVal → Cache
  | [], k, v => [(k, v)]
  | (k', v') :: rest, k, v =>
    if k' = k then (k, v) :: rest else (k', v') :: setCacheL rest k v

/-- Key prefixes from the usecase sources. -/
def documentKeyPfx : String := "mekari:document:"
def documentInfoKeyPfx : String := "mekari:document:info:"
def navSetupKeyPfx : String := "mekari:nav_setup:"
def entryNoKeyPfx : String := "mekari:entry_no:"

/-- The document-mapping parse step shared by `ProcessWebhook` and
`GetDocumentMapping`: `json.Unmarshal` into a `DocumentMapping`, with
the legacy fallback `DocumentMapping{Email: raw}` when unmarshalling
fails (a raw string is not valid JSON for the struct).  `.info` / `.nav`
values never occur under document keys (distinct prefixes); they are
mapped to the same fallback with an empty raw string. -/
def parseMapping : RVal → DocumentMapping
  | .map m => m
  | .str s => { emptyMapping with email := s }
  | _ => emptyMapping

/-! ## Filesystem model

Directories are listings (ordered lists of entries, as `os.ReadDir`
returns them); the filesystem maps a directory path to its listing.
`os.WriteFile` fails when the directory does not exist; `os.Remove`
fails when the directory or the file does not exist. -/

structure DirEntry where
  name : String
  isDir : Bool
  content : Bytes
deriving DecidableEq, Repr

abbrev Dir := List DirEntry
abbrev FileSys := List (String × Dir)

def lookupDir : FileSys → String → Option Dir
  | [], _ => none
  | (d', dir) :: rest, d => if d' = d then some dir else lookupDir rest d

def setDir : FileSys → String → Dir → FileSys
  | [], d, dir => [(d, dir)]
  | (d', dir') :: rest, d, dir =>
    if d' = d then (d, dir) :: rest else (d', dir') :: setDir rest d dir

/-- Overwrite-or-create a file entry inside a listing (`os.WriteFile`
semantics at the listing level: an existing name is truncated and
rewritten in place, a new name is appended). -/
def writeEntry (dir : Dir) (name : String) (content : Bytes) : Dir :=
  if dir.any (fun e => e.name = name) then
    dir.map (fun e => if e.name = name then ⟨name, false, content⟩ else e)
  else
    dir ++ [⟨name, false, content⟩]

/-- `os.WriteFile dir/name`: fails (`none`) when the directory is absent. -/
def writeFile (fs : FileSys) (d name : String) (content : Bytes) : Option FileSys :=
  match lookupDir fs d with
  | none => none
  | some dir => some (setDir fs d (writeEntry dir name content))

/-- `os.Remove dir/name`: fails (`none`) when the directory or the entry
is absent; otherwise removes the entry. -/
def removeFile (fs : FileSys) (d name : String) : Option FileSys :=
  match lookupDir fs d with
  | none => none
  | some dir =>
    if dir.any (fun e => e.name = name) then
      some (setDir fs d (dir.filter (fun e => ¬ e.name = name)))
    else none

/-- `os.ReadFile dir/name`: content of the first entry with that name
(reading a subdirectory fails). -/
def readFile (fs : FileSys) (d name : String) : Option Bytes :=
  match lookupDir fs d with
  | none => none
  | some dir =>
    match dir.find? (fun e => e.name = name) with
    | none => none
    | some e => if e.isDir then none else some e.content

/-! ## Document service (`internal/infrastructure/document/document_service.go`)

Operations are parameterized by the directory path they act on; the
exported methods pass the statically configured paths, and the
`...WithPath` variants (whose definitions are not part of the provided
sources — only their call sites are) pass the ERP-supplied override
paths, per spec §4.1. -/

/-- `config.DocumentConfig`. -/
structure Config where
  basePath : String
  readyFolder : String
  progressFolder : String
  finishFolder : String
  fileExtension : String
deriving DecidableEq, Repr

/-- `GetReadyPath` (`filepath.Join(BasePath, ReadyFolder)`). -/
def readyPathCfg (c : Config) : String := c.basePath ++ "/" ++ c.readyFolder

/-- `GetProgressPath`. -/
def progressPathCfg (c : Config) : String := c.basePath ++ "/" ++ c.progressFolder

/-- `GetFinishPath`. -/
def finishPathCfg (c : Config) : String := c.basePath ++ "/" ++ c.finishFolder

/-- Default extension handling shared by the find operations:
`extension := config.FileExtension; if extension == "" { extension = ".pdf" }`. -/
def extOrDefault (c : Config) : String :=
  if c.fileExtension = "" then ".pdf" else c.fileExtension

/-- The matching test applied to each listed entry by the find loops:
skip subdirectories, require the (lower-cased) extension suffix,
require the invoice number as a substring of the filename. -/
def fileMatches (ext inv : String) (e : DirEntry) : Bool :=
  !e.isDir && strHasSuffix (strToLower e.name) (strToLower ext) && strContains e.name inv

/-- The shared find loop of `FindDocumentByInvoiceNumber` and
`FindFilenameInProgress`: walk the listing in order, `continue` past
subdirectories, wrong extensions and non-matching names, stop at the
first match. -/
def findLoop (ext inv : String) : Dir → Option String
  | [] => none
  | e :: rest =>
    if e.isDir then findLoop ext inv rest
    else if ¬ strHasSuffix (strToLower e.name) (strToLower ext) = true then findLoop ext inv rest
    else if strContains e.name inv then some e.name
    else findLoop ext inv rest

/-- `FindFilenameInProgress` generalized over the directory searched:
list the directory (error if unreadable), run the find loop, not-found
error when no listed file matches. -/
def findFilenameInDir (fs : FileSys) (d ext inv : String) : Except String String :=
  match lookupDir fs d with
  | none => .error "failed to read progress folder"
  | some dir =>
    match findLoop ext inv dir with
    | some name => .ok name
    | none => .error ("document not found in progress for invoice number: " ++ inv)

/-- `FindFilenameInProgress` (config progress path). -/
def findFilenameInProgress (c : Config) (fs : FileSys) (inv : String) : Except String String :=
  findFilenameInDir fs (progressPathCfg c) (extOrDefault c) inv

/-- Modelled from the spec: `FindFilenameInProgressWithPath` is absent
from the provided sources (only its call site in the webhook usecase is
present); per spec §4.1 all path computations accept an override root
that takes precedence over the configured path. -/
def findFilenameInProgressWithPath (c : Config) (fs : FileSys) (inv p : String) :
    Except String String :=
  findFilenameInDir fs p (extOrDefault c) inv

/-- `FindDocumentByInvoiceNumber`: find in the ready folder, then read
the file content (the base64 encoding of the returned bytes is elided —
it is a bijective re-coding with no effect on the selection logic). -/
def findDocumentByInvoiceNumber (c : Config) (fs : FileSys) (inv : String) :
    Except String (Bytes × String) :=
  match lookupDir fs (readyPathCfg c) with
  | none => .error "failed to read ready folder"
  | some dir =>
    match findLoop (extOrDefault c) inv dir with
    | none => .error ("document not found for invoice number: " ++ inv)
    | some name =>
      match readFile fs (readyPathCfg c) name with
      | none => .error "failed to read document file"
      | some content => .ok (content, name)

/-! ### Folder-mutation events

Theorems about `ProcessWebhook` observe folder mutations through a
trace of events emitted at each folder write, delete or outbound stamp
request. -/

inductive Ev where
  | replacedInProgress (dir name : String) (content : Bytes)
  | savedToFinish (dir name : String) (content : Bytes)
  | deletedFromProgress (dir name : String)
  | movedToProgress (fromDir toDir name : String)
  | stampRequested (filename : String) (annotations : List StampAnnotation) (doc : Bytes)
deriving DecidableEq, Repr

/-- `ReplaceFileInProgress` generalized over the directory
(`os.WriteFile` with overwrite). -/
def replaceFileInDir (fs : FileSys) (d name : String) (content : Bytes) :
    FileSys × List Ev × Except String Unit :=
  match writeFile fs d name content with
  | none => (fs, [], .error "failed to replace file in progress")
  | some fs' => (fs', [Ev.replacedInProgress d name content], .ok ())

/-- `SaveToFinishAndDeleteProgress` generalized over the two directories:
write the bytes to the finish directory (failure is propagated), then
best-effort delete the progress copy (failure is logged, not
propagated). -/
def saveToFinishAndDeleteProgressDirs (fs : FileSys) (fdir pdir name : String)
    (content : Bytes) : FileSys × List Ev × Except String Unit :=
  match writeFile fs fdir name content with
  | none => (fs, [], .error "failed to save file to finish folder")
  | some fs1 =>
    match removeFile fs1 pdir name with
    | none => (fs1, [Ev.savedToFinish fdir name content], .ok ())
    | some fs2 =>
      (fs2, [Ev.savedToFinish fdir name content, Ev.deletedFromProgress pdir name], .ok ())

/-- `SaveToFinishAndDeleteProgress` (config paths). -/
def saveToFinishAndDeleteProgress (c : Config) (fs : FileSys) (name : String)
    (content : Bytes) : FileSys × List Ev × Except String Unit :=
  saveToFinishAndDeleteProgressDirs fs (finishPathCfg c) (progressPathCfg c) name content

/-- Modelled from the spec: `SaveToFinishAndDeleteProgressWithPath` is
absent from the provided sources (only its call site is); per spec §4.1
it is the same operation at the ERP-supplied override paths. -/
def saveToFinishAndDeleteProgressWithPath (fs : FileSys) (name : String) (content : Bytes)
    (fPath pPath : String) : FileSys × List Ev × Except String Unit :=
  saveToFinishAndDeleteProgressDirs fs fPath pPath name content

/-! ## Environment: outcomes of external calls

Outbound HTTP calls (signing provider download/stamp, ERP setup fetch
and log patch, OAuth code check, repository sign request) and the
success of each Redis `Set` are supplied by the environment.  `.ok` for
an HTTP interaction means the call went through with a 2xx status and
the response parsed. -/
structure Env where
  /-- Success of `redisClient.Set` per key. -/
  setOk : String → Bool
  /-- Outcome of `navClient.UpdateLogEntry` (result only logged). -/
  navUpdateOk : Bool
  /-- Outcome of `navClient.GetSetup` (`.ok none` models a nil setup). -/
  navFetch : Except String (Option NAVSetup)
  /-- Outcome of `DownloadDocument` (auth, HTTP and body read collapsed). -/
  download : Except String Bytes
  /-- Auth-header preparation for the stamp request (HMAC signing or
  OAuth token retrieval); on failure `RequestStamping` errors before
  the HTTP POST is issued. -/
  stampAuthOk : Bool
  /-- Outcome of the stamp HTTP POST: `.ok` means 2xx and parsed. -/
  stampResult : Except String StampRespData
  /-- Whether the service is configured for OAuth2 (vs HMAC). -/
  isOAuth2 : Bool
  /-- Outcome of `oauthUsecase.CheckCode`. -/
  checkCode : Except String CodeCheck
  /-- Outcome of `repo.GlobalRequestSign` (the provider API call). -/
  repoResult : Except String GlobalSignResponse

/-- Mutable state threaded through the usecases: the cache and the
local filesystem. -/
structure St where
  cache : Cache
  fs : FileSys

/-! ## Webhook usecase (`ProcessWebhook` and helpers, webhook usecase file) -/

/-- The fetch-and-cache tail of `getNAVSetupCached`: fetch the setup
from the ERP and cache it under `key` (a failed cache write is only
warned). -/
def navFetchAndCache (env : Env) (st : St) (key : String) :
    St × Except String (Option NAVSetup) :=
  match env.navFetch with
  | .error e => (st, .error e)
  | .ok none => (st, .ok none)
  | .ok (some setup) =>
    let st' := if env.setOk key then { st with cache := setCacheL st.cache key (.nav setup) } else st
    (st', .ok (some setup))

/-- `getNAVSetupCached`: return the cached setup when the cached value
is a non-empty string that unmarshals as a `NAVSetup`; otherwise fetch
from the ERP and cache the result. -/
def getNAVSetupCached (env : Env) (st : St) (entryNo : Int) :
    St × Except String (Option NAVSetup) :=
  let key := navSetupKeyPfx ++ toString entryNo
  match lookupCache st.cache key with
  | some (.nav s) => (st, .ok (some s))
  | _ => navFetchAndCache env st key

/-- `sendNAVLogEntry`: resolves the ERP setup (possibly caching it) and
PATCHes a log entry built from the payload and mapping.  The entry is
pure data sent outbound with no observable effect in the model, so only
the cache side effect and the call outcome are kept. -/
def sendNAVLogEntry (env : Env) (st : St) (mapping : DocumentMapping) : St × Bool :=
  let (st', _res) := getNAVSetupCached env st mapping.entryNo
  (st', env.navUpdateOk)

/-- The stamp annotations `RequestStamping` builds from the saved stamp
positions (80×80 e-meterai element on a 595×841 A4 canvas). -/
def stampAnnotationsOf (m : DocumentMapping) : List StampAnnotation :=
  match m.stampPositions with
  | some sp => [⟨sp.page, sp.x, sp.y, 80, 80, 595, 841, "meterai"⟩]
  | none => []

/-- `RequestStamping`: POST the signed bytes and annotation positions to
the stamp endpoint; on success, cache the original mapping verbatim
under the newly returned stamp-document ID (a failed cache write is
only warned).  The base64 encoding of the document is elided. -/
def requestStamping (env : Env) (st : St) (signedPDFContent : Bytes)
    (mapping : DocumentMapping) : St × List Ev × Except String Unit :=
  if ¬ env.stampAuthOk then (st, [], .error "failed to get access token")
  else
    let evs := [Ev.stampRequested mapping.filename (stampAnnotationsOf mapping) signedPDFContent]
    match env.stampResult with
    | .error e => (st, evs, .error e)
    | .ok resp =>
      let key := documentKeyPfx ++ resp.id
      let st' := if env.setOk key then { st with cache := setCacheL st.cache key (.map mapping) } else st
      (st', evs, .ok ())

/-- `replaceDocumentInProgress`: find the file in the progress folder
(ERP override path when non-empty, else configured path) and overwrite
it with the new content. -/
def replaceDocumentInProgress (c : Config) (fs : FileSys) (inv : String)
    (content : Bytes) (progressPath : String) : FileSys × List Ev × Except String Unit :=
  let dir := if progressPath ≠ "" then progressPath else progressPathCfg c
  match findFilenameInDir fs dir (extOrDefault c) inv with
  | .error e => (fs, [], .error ("failed to find file in progress: " ++ e))
  | .ok name => replaceFileInDir fs dir name content

/-- The signed-document handling of `ProcessWebhook` (step 3 of spec
§4.2): when signing is completed and stamping not yet successful,
download the signed bytes (failure is fatal); when stamping is still
required, replace the progress-folder file and issue the stamp request
(both failures are logged and swallowed); otherwise just replace the
progress-folder file (failure logged and swallowed). -/
def signingPhase (c : Config) (env : Env) (st : St) (p : WebhookPayload)
    (mapping : DocumentMapping) (inv progressPath : String) :
    St × List Ev × Except String Unit :=
  if p.signingStatus = "completed" ∧ p.stampingStatus ≠ "success" then
    match env.download with
    | .error _ => (st, [], .error "failed to download signed document")
    | .ok signed =>
      if p.stampingStatus = "none" ∧ mapping.stampPositions ≠ none ∧ mapping.stamping = true then
        let (fs', evs1, _r1) := replaceDocumentInProgress c st.fs inv signed progressPath
        let (st2, evs2, _r2) := requestStamping env { st with fs := fs' } signed mapping
        (st2, evs1 ++ evs2, .ok ())
      else
        let (fs', evs1, _r1) := replaceDocumentInProgress c st.fs inv signed progressPath
        ({ st with fs := fs' }, evs1, .ok ())
  else (st, [], .ok ())

/-- The stamping-completed handling of `ProcessWebhook` (step 4 of spec
§4.2): download the stamped bytes (failure is fatal) and save them to
the finish folder under the mapping's filename (webhook filename when
the mapping lacks one), deleting the progress copy; the ERP override
paths are used when both are non-empty. -/
def stampingPhase (c : Config) (env : Env) (st : St) (p : WebhookPayload)
    (mapping : DocumentMapping) (progressPath finishPath : String) :
    St × List Ev × Except String Unit :=
  if p.stampingStatus = "success" then
    let originalFilename := if mapping.filename = "" then p.filename else mapping.filename
    match env.download with
    | .error _ => (st, [], .error "failed to download final document")
    | .ok finalContent =>
      let (fs', evs, r) :=
        if finishPath ≠ "" ∧ progressPath ≠ "" then
          saveToFinishAndDeleteProgressWithPath st.fs originalFilename finalContent finishPath progressPath
        else
          saveToFinishAndDeleteProgress c st.fs originalFilename finalContent
      ({ st with fs := fs' }, evs, r)
  else (st, [], .ok ())

/-- The state updates of `ProcessWebhook` between the mapping lookup
and the folder phases: store the `DocumentInfo` snapshot, send the ERP
log entry (result only warned), resolve the ERP setup for the folder
paths.  Returns the accumulated state and the setup-resolution
outcome. -/
def webhookPrelude (env : Env) (st : St) (p : WebhookPayload)
    (mapping : DocumentMapping) (inv : String) : St × Except String (Option NAVSetup) :=
  let docInfo : DocumentInfo :=
    { documentID := p.id, email := mapping.email, invoiceNumber := inv
      filename := p.filename, signingStatus := p.signingStatus
      stampingStatus := p.stampingStatus, docURL := p.docURL }
  let st1 : St := { st with cache := setCacheL st.cache (documentInfoKeyPfx ++ p.id) (.info docInfo) }
  let st2 := (sendNAVLogEntry env st1 mapping).1
  getNAVSetupCached env st2 mapping.entryNo

/-- Progress path derived from the setup resolution (`""` when the
resolution failed or returned nil). -/
def navProgressPath (r : Except String (Option NAVSetup)) : String :=
  match r with
  | .ok (some s) => s.fileLocationProcess
  | _ => ""

/-- The invoice number `ProcessWebhook` works with: the mapping's, or
extracted from the webhook filename when the mapping lacks one. -/
def webhookInvoice (p : WebhookPayload) (mapping : DocumentMapping) : String :=
  if mapping.invoiceNumber = "" then extractInvoiceNumber p.filename else mapping.invoiceNumber

/-- Finish path derived from the setup resolution (the source uses
`FileLocationIn` as the finish path here). -/
def navFinishPath (r : Except String (Option NAVSetup)) : String :=
  match r with
  | .ok (some s) => s.fileLocationIn
  | _ => ""

/-- `ProcessWebhook` (webhook usecase): resolve the cached mapping
(missing entry is a terminal not-found error), snapshot the status
(failed snapshot write is a terminal error), mirror to the ERP
(best-effort), then run the signing and stamping phases in order,
propagating only their fatal errors. -/
def processWebhook (c : Config) (env : Env) (st : St) (p : WebhookPayload) :
    St × List Ev × Except String Unit :=
  match lookupCache st.cache (documentKeyPfx ++ p.id) with
  | none => (st, [], .error "document not found in Redis")
  | some v =>
    let mapping := parseMapping v
    let inv := webhookInvoice p mapping
    if env.setOk (documentInfoKeyPfx ++ p.id) = false then
      (st, [], .error "failed to save document info")
    else
      let (st3, nres) := webhookPrelude env st p mapping inv
      let pp := navProgressPath nres
      let fp := navFinishPath nres
      let (st4, evs1, r1) := signingPhase c env st3 p mapping inv pp
      match r1 with
      | .error e => (st4, evs1, .error e)
      | .ok _ =>
        let (st5, evs2, r2) := stampingPhase c env st4 p mapping pp fp
        match r2 with
        | .error e => (st5, evs1 ++ evs2, .error e)
        | .ok _ => (st5, evs1 ++ evs2, .ok ())

/-- The progress directory the signing phase replaces the file in:
the ERP-resolved progress path when non-empty, else the configured
progress path. -/
def webhookReplaceDir (c : Config) (env : Env) (st : St) (p : WebhookPayload) (v : RVal) : String :=
  let mapping := parseMapping v
  let pp := navProgressPath (webhookPrelude env st p mapping (webhookInvoice p mapping)).2
  if pp ≠ "" then pp else progressPathCfg c

/-- The (finish, progress) directory pair the stamping phase saves
into: the ERP-resolved pair when both paths are non-empty, else the
configured pair. -/
def webhookSaveDirs (c : Config) (env : Env) (st : St) (p : WebhookPayload) (v : RVal) :
    String × String :=
  let mapping := parseMapping v
  let nres := (webhookPrelude env st p mapping (webhookInvoice p mapping)).2
  let pp := navProgressPath nres
  let fp := navFinishPath nres
  if fp ≠ "" ∧ pp ≠ "" then (fp, pp) else (finishPathCfg c, progressPathCfg c)

/-- `GetDocumentMapping` (esign usecase): cache lookup with the legacy
raw-string fallback on unmarshal failure. -/
def getDocumentMapping (st : St) (documentID : String) : Except String DocumentMapping :=
  match lookupCache st.cache (documentKeyPfx ++ documentID) with
  | none => .error "document not found"
  | some v => .ok (parseMapping v)

/-! ## Sign-request usecase (`GlobalRequestSign` and helpers, esign_usecase.go) -/

/-- `fetchAndCacheNAVSetup`: skip when any non-empty value is already
cached under the entry-number key; otherwise fetch from the ERP and
cache it (here a failed fetch, nil setup or failed cache write is an
error — the caller only warns). -/
def fetchAndCacheNAVSetup (env : Env) (st : St) (entryNo : Int) :
    St × Except String Unit :=
  let key := navSetupKeyPfx ++ toString entryNo
  match lookupCache st.cache key with
  | some v =>
    if v = .str "" then
      match env.navFetch with
      | .error e => (st, .error ("failed to fetch NAV setup: " ++ e))
      | .ok none => (st, .error "NAV setup not available")
      | .ok (some setup) =>
        if env.setOk key then
          ({ st with cache := setCacheL st.cache key (.nav setup) }, .ok ())
        else (st, .error "failed to cache NAV setup")
    else (st, .ok ())
  | none =>
    match env.navFetch with
    | .error e => (st, .error ("failed to fetch NAV setup: " ++ e))
    | .ok none => (st, .error "NAV setup not available")
    | .ok (some setup) =>
      if env.setOk key then
        ({ st with cache := setCacheL st.cache key (.nav setup) }, .ok ())
      else (st, .error "failed to cache NAV setup")

/-- The signer-validation loop of `GlobalRequestSign` (index `i` is the
0-based position, error messages use the 1-based position). -/
def validateSigners (i : Nat) : List SignerRequest → Option String
  | [] => none
  | s :: rest =>
    if s.name = "" then some ("signer " ++ toString (i + 1) ++ ": name is required")
    else if s.email = "" then some ("signer " ++ toString (i + 1) ++ ": email is required")
    else if s.signPage ≤ 0 then some ("signer " ++ toString (i + 1) ++ ": sign_page must be greater than 0")
    else if s.signaturePositions = none then some ("signer " ++ toString (i + 1) ++ ": signature_positions is required")
    else validateSigners (i + 1) rest

/-- The `validReminders` set of `GlobalRequestSign`. -/
def validReminder (s : String) : Bool :=
  s = "" || s = "none" || s = "daily" || s = "three_days" || s = "weekly" || s = "monthly"

/-- The deadline-validation block of `GlobalRequestSign`: signing
deadline within 3–31 when set, reminder-after-receive within 1–31 when
set, recurring reminder in the allowed set. -/
def validateDeadline : Option DocumentDeadline → Option String
  | none => none
  | some d =>
    if d.signingDeadline ≠ 0 ∧ (d.signingDeadline < 3 ∨ d.signingDeadline > 31) then
      some "signing_deadline must be between 3 and 31"
    else if d.daysReminderAfterReceive ≠ 0 ∧ (d.daysReminderAfterReceive < 1 ∨ d.daysReminderAfterReceive > 31) then
      some "days_reminder_after_received must be between 1 and 31"
    else if ¬ validReminder d.recurringReminder = true then
      some "recurring_reminder must be one of: none, daily, three_days, weekly, monthly"
    else none

/-- `saveDocumentAndEntryNoToCache`: build the `DocumentMapping` for the
newly created provider document and store it under both the document-ID
key and the entry-number key (failed writes are only warned). -/
def saveDocumentAndEntryNoToCache (env : Env) (st : St) (req : GlobalSignRequest)
    (resp : GlobalSignResponse) (entryNo : Int) : St :=
  let mapping : DocumentMapping :=
    { documentID := resp.id, email := req.email, invoiceNumber := req.invoiceNumber
      filename := resp.filename, stampPositions := req.stampPositions
      documentDeadline := req.documentDeadline, entryNo := req.entryNo
      signing := req.signing, stamping := req.stamping }
  let documentKey := documentKeyPfx ++ resp.id
  let st1 := if env.setOk documentKey then { st with cache := setCacheL st.cache documentKey (.map mapping) } else st
  let byEntryNoKey := entryNoKeyPfx ++ toString entryNo
  if env.setOk byEntryNoKey then { st1 with cache := setCacheL st1.cache byEntryNoKey (.map mapping) } else st1

/-- `stampingProcess`: the stamping-only shortcut — resolve the mapping
cached under the entry-number key (missing or empty is an error, an
unparsable value is an error, no legacy fallback here), download the
signed document, and issue the stamp request (failure is propagated). -/
def stampingProcess (env : Env) (st : St) (req : GlobalSignRequest) (entryNo : Int) :
    St × Except String GlobalSignResult :=
  let byEntryNoKey := entryNoKeyPfx ++ toString entryNo
  match lookupCache st.cache byEntryNoKey with
  | none => (st, .error ("failed to stamping, Please sign first your document: " ++ req.invoiceNumber))
  | some v =>
    if v = .str "" then
      (st, .error ("failed to stamping, Please sign first your document: " ++ req.invoiceNumber))
    else
      match v with
      | .map mapping =>
        match env.download with
        | .error e => (st, .error ("failed to download signed document: " ++ e))
        | .ok signedContent =>
          let (st2, _evs, r) := requestStamping env st signedContent mapping
          match r with
          | .error e => (st2, .error ("failed to request stamping: " ++ e))
          | .ok _ =>
            (st2, .ok { success := true, needAuth := false, redirectURL := ""
                        message := "Document stamping request created successfully", data := none })
      | _ => (st, .error "failed to parse initial entry no mapping")

/-- The post-authorization part of `GlobalRequestSign`: the
stamping-only shortcut, the signer and deadline validation, the
provider API call, and the mapping cache writes. -/
def globalRequestSignCore (env : Env) (st : St) (req : GlobalSignRequest) :
    St × Except String GlobalSignResult :=
  if req.signing = false ∧ req.stamping = true then
    stampingProcess env st req req.entryNo
  else if req.signers = [] then (st, .error "at least one signer is required")
  else
    match validateSigners 0 req.signers with
    | some e => (st, .error e)
    | none =>
      match validateDeadline req.documentDeadline with
      | some e => (st, .error e)
      | none =>
        match env.repoResult with
        | .error e => (st, .error e)
        | .ok resp =>
          let st' := saveDocumentAndEntryNoToCache env st req resp req.entryNo
          (st', .ok { success := true, needAuth := false, redirectURL := ""
                      message := "Document sign request created successfully", data := some resp })

/-- `GlobalRequestSign` (esign usecase): prefetch the ERP setup
(best-effort), enforce the OAuth2 email requirement and code check
(returning the authorization redirect when no code is cached), then run
the core flow. -/
def globalRequestSign (env : Env) (st : St) (req : GlobalSignRequest) :
    St × Except String GlobalSignResult :=
  let st0 := (fetchAndCacheNAVSetup env st req.entryNo).1
  if env.isOAuth2 ∧ req.email = "" then
    (st0, .error "email is required for OAuth2 authentication")
  else if env.isOAuth2 then
    match env.checkCode with
    | .error e => (st0, .error ("failed to check OAuth code: " ++ e))
    | .ok cc =>
      if cc.hasCode = false then
        (st0, .ok { success := false, needAuth := true, redirectURL := cc.redirectURL
                    message := "Authorization required. Please authorize first.", data := none })
      else globalRequestSignCore env st0 req
  else globalRequestSignCore env st0 req

/-! ## HTTP handler (`server.go` `GlobalRequestSign`) -/

/-- The sign-request handler: `400` when the body fails to parse, `500`
when the usecase returns any error, `200` when authorization is needed,
`201` otherwise. -/
def handlerGlobalRequestSign (env : Env) (st : St) (body : Option GlobalSignRequest) : Nat :=
  match body with
  | none => 400
  | some req =>
    match (globalRequestSign env st req).2 with
    | .error _ => 500
    | .ok r => if r.needAuth then 200 else 201

/-! ## Signature sizing (`esign_repository.go` `calculateSignatureSize`) -/

/-- `calculateSignatureSize`: signature element size by signer count
(the Go `float64` results are exact integers). -/
def calculateSignatureSize (signerCount : Int) : Int × Int :=
  if signerCount ≤ 1 then (180, 140)
  else if signerCount = 2 then (150, 120)
  else if signerCount = 3 then (130, 100)
  else (110, 85)

/-! ## Helper lemmas on the cache and filesystem models -/

theorem lookupCache_setCacheL_self (cc : Cache) (k : String) (v : RVal) :
    lookupCache (setCacheL cc k v) k = some v := by
  induction cc with
  | nil => simp [setCacheL, lookupCache]
  | cons hd rest ih =>
    obtain ⟨k', v'⟩ := hd
    by_cases h : k' = k
    · simp [setCacheL, h, lookupCache]
    · simp [setCacheL, h, lookupCache, ih]

theorem lookupCache_setCacheL_ne (cc : Cache) (k k' : String) (v : RVal) (h : k' ≠ k) :
    lookupCache (setCacheL cc k v) k' = lookupCache cc k' := by
  induction cc with
  | nil => simp [setCacheL, lookupCache, Ne.symm h]
  | cons hd rest ih =>
    obtain ⟨k0, v0⟩ := hd
    by_cases h0 : k0 = k
    · subst h0
      simp [setCacheL, lookupCache, Ne.symm h]
    · simp [setCacheL, h0, lookupCache, ih]

theorem lookupDir_setDir_self (fs : FileSys) (d : String) (dir : Dir) :
    lookupDir (setDir fs d dir) d = some dir := by
  induction fs with
  | nil => simp [setDir, lookupDir]
  | cons hd rest ih =>
    obtain ⟨d', dir'⟩ := hd
    by_cases h : d' = d
    · simp [setDir, h, lookupDir]
    · simp [setDir, h, lookupDir, ih]

theorem lookupDir_setDir_ne (fs : FileSys) (d d' : String) (dir : Dir) (h : d' ≠ d) :
    lookupDir (setDir fs d dir) d' = lookupDir fs d' := by
  induction fs with
  | nil => simp [setDir, lookupDir, Ne.symm h]
  | cons hd rest ih =>
    obtain ⟨d0, dir0⟩ := hd
    by_cases h0 : d0 = d
    · subst h0
      simp [setDir, lookupDir, Ne.symm h]
    · simp [setDir, h0, lookupDir, ih]

theorem find?_map_replace (dir : Dir) (n : String) (c : Bytes) :
    dir.any (fun e => e.name = n) = true →
    (dir.map (fun e => if e.name = n then (⟨n, false, c⟩ : DirEntry) else e)).find?
      (fun e => e.name = n) = some ⟨n, false, c⟩ := by
  induction dir with
  | nil => intro h; simp at h
  | cons e rest ih =>
    intro h
    by_cases he : e.name = n
    · rw [List.map_cons, if_pos he, List.find?_cons_of_pos _ (by simp)]
    · rw [List.map_cons, if_neg he, List.find?_cons_of_neg _ (by simp [he])]
      apply ih
      rcases List.any_eq_true.mp h with ⟨x, hx, hpx⟩
      rcases List.mem_cons.mp hx with hx | hx
      · subst hx; simp [he] at hpx
      · exact List.any_eq_true.mpr ⟨x, hx, hpx⟩

theorem find?_append_new (dir : Dir) (n : String) (c : Bytes) :
    dir.any (fun e => e.name = n) = false →
    (dir ++ [(⟨n, false, c⟩ : DirEntry)]).find? (fun e => e.name = n) = some ⟨n, false, c⟩ := by
  induction dir with
  | nil => intro _; rw [List.nil_append, List.find?_cons_of_pos _ (by simp)]
  | cons e rest ih =>
    intro h
    rw [List.any_cons, Bool.or_eq_false_iff] at h
    rw [List.cons_append, List.find?_cons_of_neg _ (by simp [h.1])]
    exact ih h.2

theorem find?_writeEntry (dir : Dir) (n : String) (c : Bytes) :
    (writeEntry dir n c).find? (fun e => e.name = n) = some ⟨n, false, c⟩ := by
  unfold writeEntry
  by_cases h : dir.any (fun e => e.name = n)
  · rw [if_pos h]
    exact find?_map_replace dir n c h
  · rw [if_neg h]
    exact find?_append_new dir n c (Bool.not_eq_true _ ▸ eq_false_of_ne_true h)

theorem readFile_writeFile_self (fs fs' : FileSys) (d n : String) (c : Bytes)
    (h : writeFile fs d n c = some fs') : readFile fs' d n = some c := by
  unfold writeFile at h
  cases hd : lookupDir fs d with
  | none => rw [hd] at h; exact absurd h (by simp)
  | some dir =>
    rw [hd] at h
    injection h with h
    subst h
    simp only [readFile, lookupDir_setDir_self, find?_writeEntry]
    rfl

theorem lookupDir_writeFile_ne (fs fs' : FileSys) (d d' n : String) (c : Bytes)
    (h : writeFile fs d n c = some fs') (hne : d' ≠ d) :
    lookupDir fs' d' = lookupDir fs d' := by
  unfold writeFile at h
  cases hd : lookupDir fs d with
  | none => rw [hd] at h; exact absurd h (by simp)
  | some dir =>
    rw [hd] at h
    injection h with h
    subst h
    exact lookupDir_setDir_ne _ _ _ _ hne

theorem lookupDir_writeFile_self (fs fs' : FileSys) (d n : String) (c : Bytes)
    (h : writeFile fs d n c = some fs') : lookupDir fs' d ≠ none := by
  unfold writeFile at h
  cases hd : lookupDir fs d with
  | none => rw [hd] at h; exact absurd h (by simp)
  | some dir =>
    rw [hd] at h
    injection h with h
    subst h
    rw [lookupDir_setDir_self]
    simp

theorem writeFile_isSome (fs : FileSys) (d n : String) (c : Bytes)
    (h : lookupDir fs d ≠ none) : ∃ fs', writeFile fs d n c = some fs' := by
  unfold writeFile
  cases hd : lookupDir fs d with
  | none => exact absurd hd h
  | some dir => exact ⟨_, rfl⟩

/-- The result filesystem after a best-effort `os.Remove` (failure
swallowed by the caller). -/
def removeAttempt (fs : FileSys) (d n : String) : FileSys :=
  match removeFile fs d n with
  | some fs' => fs'
  | none => fs

theorem find?_filter_name_ne (dir : Dir) (n : String) :
    (dir.filter (fun e => ¬ e.name = n)).find? (fun e => e.name = n) = none := by
  rw [List.find?_eq_none]
  intro e he
  have := List.of_mem_filter he
  simpa using this

theorem find?_name_none_of_any_false (dir : Dir) (n : String)
    (h : ¬ dir.any (fun e => e.name = n) = true) :
    dir.find? (fun e => e.name = n) = none := by
  rw [List.find?_eq_none]
  intro e he hc
  exact h (List.any_eq_true.mpr ⟨e, he, hc⟩)

theorem readFile_removeAttempt (fs : FileSys) (d n : String) :
    readFile (removeAttempt fs d n) d n = none := by
  unfold removeAttempt
  cases hr : removeFile fs d n with
  | none =>
    unfold removeFile at hr
    cases hd : lookupDir fs d with
    | none => simp only [readFile, hd]
    | some dir =>
      rw [hd] at hr
      by_cases h : dir.any (fun e => e.name = n)
      · simp only [if_pos h] at hr
        exact absurd hr (by simp)
      · simp only [readFile, hd, find?_name_none_of_any_false dir n h]
  | some fs' =>
    unfold removeFile at hr
    cases hd : lookupDir fs d with
    | none => rw [hd] at hr; exact absurd hr (by simp)
    | some dir =>
      rw [hd] at hr
      by_cases h : dir.any (fun e => e.name = n)
      · simp only [if_pos h, Option.some.injEq] at hr
        subst hr
        simp only [readFile, lookupDir_setDir_self, find?_filter_name_ne]
      · simp only [if_neg h] at hr
        exact absurd hr (by simp)

theorem lookupDir_removeAttempt_ne (fs : FileSys) (d d' n : String) (hne : d' ≠ d) :
    lookupDir (removeAttempt fs d n) d' = lookupDir fs d' := by
  unfold removeAttempt removeFile
  cases hd : lookupDir fs d with
  | none => simp
  | some dir =>
    by_cases h : dir.any (fun e => e.name = n)
    · simp only [h, if_true]
      exact lookupDir_setDir_ne _ _ _ _ hne
    · simp [h]

theorem readFile_removeAttempt_ne (fs : FileSys) (d d' n n' : String) (hne : d' ≠ d) :
    readFile (removeAttempt fs d n) d' n' = readFile fs d' n' := by
  unfold readFile
  rw [lookupDir_removeAttempt_ne _ _ _ _ hne]

theorem filter_name_any_false (dir : Dir) (n : String) :
    (dir.filter (fun e => ¬ e.name = n)).any (fun e => e.name = n) = false := by
  rw [Bool.eq_false_iff]
  intro hc
  obtain ⟨e, he, hc⟩ := List.any_eq_true.mp hc
  have hf := List.of_mem_filter he
  simp at hf hc
  exact hf hc

theorem removeFile_removeAttempt (fs : FileSys) (d n : String) :
    removeFile (removeAttempt fs d n) d n = none := by
  unfold removeAttempt
  cases hr : removeFile fs d n with
  | none => exact hr
  | some fs' =>
    unfold removeFile at hr
    cases hd : lookupDir fs d with
    | none => rw [hd] at hr; exact absurd hr (by simp)
    | some dir =>
      rw [hd] at hr
      by_cases h : dir.any (fun e => e.name = n)
      · simp only [if_pos h, Option.some.injEq] at hr
        subst hr
        unfold removeFile
        rw [lookupDir_setDir_self]
        simp only [filter_name_any_false, Bool.false_eq_true, if_false]
      · simp only [if_neg h] at hr
        exact absurd hr (by simp)

/-- Behaviour of the write-then-best-effort-delete operation when the
finish directory exists and differs from the progress directory. -/
theorem saveDirs_spec (fs : FileSys) (fdir pdir name : String) (content : Bytes)
    (hdir : lookupDir fs fdir ≠ none) (hne : fdir ≠ pdir) :
    (saveToFinishAndDeleteProgressDirs fs fdir pdir name content).2.2 = .ok () ∧
    readFile (saveToFinishAndDeleteProgressDirs fs fdir pdir name content).1 fdir name
      = some content ∧
    readFile (saveToFinishAndDeleteProgressDirs fs fdir pdir name content).1 pdir name
      = none ∧
    lookupDir (saveToFinishAndDeleteProgressDirs fs fdir pdir name content).1 fdir ≠ none ∧
    removeFile (saveToFinishAndDeleteProgressDirs fs fdir pdir name content).1 pdir name
      = none := by
  obtain ⟨fs1, hw⟩ := writeFile_isSome fs fdir name content hdir
  have hout : (saveToFinishAndDeleteProgressDirs fs fdir pdir name content).1
      = removeAttempt fs1 pdir name ∧
      (saveToFinishAndDeleteProgressDirs fs fdir pdir name content).2.2 = .ok () := by
    cases hr : removeFile fs1 pdir name with
    | none =>
      simp only [saveToFinishAndDeleteProgressDirs, hw, hr, removeAttempt]
      exact ⟨True.intro, True.intro⟩
    | some fs2 =>
      simp only [saveToFinishAndDeleteProgressDirs, hw, hr, removeAttempt]
      exact ⟨True.intro, True.intro⟩
  refine ⟨hout.2, ?_, ?_, ?_, ?_⟩
  · rw [hout.1, readFile_removeAttempt_ne _ _ _ _ _ hne]
    exact readFile_writeFile_self fs fs1 fdir name content hw
  · rw [hout.1]
    exact readFile_removeAttempt fs1 pdir name
  · rw [hout.1]
    unfold readFile at *
    rw [lookupDir_removeAttempt_ne _ _ _ _ hne]
    exact lookupDir_writeFile_self fs fs1 fdir name content hw
  · rw [hout.1]
    exact removeFile_removeAttempt fs1 pdir name

/-- C9.  `SaveToFinishAndDeleteProgress` is idempotent for a fixed
filename and content: when the finish folder exists (and is a different
directory from the progress folder), the call writes the content to the
finish folder and returns success; calling it again leaves the same
finish-folder content, the second progress-folder delete is a no-op
(the copy is already gone), and the second call also returns success. -/
theorem saveToFinish_idempotent (c : Config) (fs : FileSys) (name : String) (content : Bytes)
    (hdir : lookupDir fs (finishPathCfg c) ≠ none)
    (hne : finishPathCfg c ≠ progressPathCfg c) :
    (saveToFinishAndDeleteProgress c fs name content).2.2 = .ok () ∧
    readFile (saveToFinishAndDeleteProgress c fs name content).1 (finishPathCfg c) name
      = some content ∧
    removeFile (saveToFinishAndDeleteProgress c fs name content).1 (progressPathCfg c) name
      = none ∧
    (saveToFinishAndDeleteProgress c
        (saveToFinishAndDeleteProgress c fs name content).1 name content).2.2 = .ok () ∧
    readFile (saveToFinishAndDeleteProgress c
        (saveToFinishAndDeleteProgress c fs name content).1 name content).1
      (finishPathCfg c) name = some content := by
  have h1 := saveDirs_spec fs (finishPathCfg c) (progressPathCfg c) name content hdir hne
  have h2 := saveDirs_spec (saveToFinishAndDeleteProgressDirs fs (finishPathCfg c)
      (progressPathCfg c) name content).1 (finishPathCfg c) (progressPathCfg c) name content
      h1.2.2.2.1 hne
  exact ⟨h1.1, h1.2.1, h1.2.2.2.2, h2.1, h2.2.1⟩

/-- C9 witness: a concrete run on a filesystem whose progress folder
already lacks the file. -/
theorem saveToFinish_idempotent_witness :
    (saveToFinishAndDeleteProgress ⟨"d", "r", "p", "f", ""⟩
        [("d/f", []), ("d/p", [])] "a.pdf" [7]).2.2 = .ok () ∧
    readFile (saveToFinishAndDeleteProgress ⟨"d", "r", "p", "f", ""⟩
        [("d/f", []), ("d/p", [])] "a.pdf" [7]).1 "d/f" "a.pdf" = some [7] := by
  have h := saveToFinish_idempotent ⟨"d", "r", "p", "f", ""⟩
    [("d/f", []), ("d/p", [])] "a.pdf" [7] (by decide) (by decide)
  exact ⟨h.1, h.2.1⟩

/-- C5.  `calculateSignatureSize` realizes the documented step function
of the signer count — (180,140) for at most one signer, (150,120) for
two, (130,100) for three, (110,85) for four or more — and both the
width and the height are monotonically non-increasing in the count. -/
theorem calculateSignatureSize_spec (n : Int) (h : 0 ≤ n) :
    ((n ≤ 1 → calculateSignatureSize n = (180, 140)) ∧
     (n = 2 → calculateSignatureSize n = (150, 120)) ∧
     (n = 3 → calculateSignatureSize n = (130, 100)) ∧
     (4 ≤ n → calculateSignatureSize n = (110, 85))) ∧
    (∀ m : Int, n ≤ m →
      (calculateSignatureSize m).1 ≤ (calculateSignatureSize n).1 ∧
      (calculateSignatureSize m).2 ≤ (calculateSignatureSize n).2) := by
  constructor
  · refine ⟨?_, ?_, ?_, ?_⟩ <;>
      (intro h1; unfold calculateSignatureSize; split_ifs <;> first | rfl | omega)
  · intro m hm
    unfold calculateSignatureSize
    split_ifs <;> constructor <;> simp <;> omega

/-- C5 witness: the step values at counts 1, 2, 3 and 4. -/
theorem calculateSignatureSize_witness :
    calculateSignatureSize 1 = (180, 140) ∧ calculateSignatureSize 2 = (150, 120) ∧
    calculateSignatureSize 3 = (130, 100) ∧ calculateSignatureSize 4 = (110, 85) := by
  refine ⟨?_, ?_, ?_, ?_⟩
  · exact (calculateSignatureSize_spec 1 (by decide)).1.1 (by decide)
  · exact (calculateSignatureSize_spec 2 (by decide)).1.2.1 rfl
  · exact (calculateSignatureSize_spec 3 (by decide)).1.2.2.1 rfl
  · exact (calculateSignatureSize_spec 4 (by decide)).1.2.2.2 (by decide)

/-- C4.  When the stamp request succeeds (auth prepared, 2xx response,
cache write accepted), `RequestStamping` stores, under the newly
returned stamp-document ID, a `DocumentMapping` that is the original
record propagated verbatim — in particular its `invoice_number`,
`filename` and `stamp_positions` are exactly those of the original. -/
theorem requestStamping_caches_verbatim (env : Env) (st : St) (signed : Bytes)
    (mapping : DocumentMapping) (resp : StampRespData)
    (hauth : env.stampAuthOk = true)
    (hres : env.stampResult = .ok resp)
    (hset : env.setOk (documentKeyPfx ++ resp.id) = true) :
    lookupCache (requestStamping env st signed mapping).1.cache (documentKeyPfx ++ resp.id)
      = some (.map mapping) ∧
    ∀ m' : DocumentMapping,
      lookupCache (requestStamping env st signed mapping).1.cache (documentKeyPfx ++ resp.id)
        = some (.map m') →
      m'.invoiceNumber = mapping.invoiceNumber ∧ m'.filename = mapping.filename ∧
      m'.stampPositions = mapping.stampPositions ∧ m' = mapping := by
  have hmain : lookupCache (requestStamping env st signed mapping).1.cache
      (documentKeyPfx ++ resp.id) = some (.map mapping) := by
    unfold requestStamping
    rw [hauth, hres]
    simp only [Bool.not_true, Bool.false_eq_true, if_false, hset, if_pos]
    exact lookupCache_setCacheL_self _ _ _
  refine ⟨hmain, fun m' hm' => ?_⟩
  rw [hmain] at hm'
  have : mapping = m' := by
    injection hm' with hm'
    injection hm'
  subst this
  exact ⟨rfl, rfl, rfl, rfl⟩

/-- C4 witness: a concrete stamp-request success caches the concrete
mapping under the returned ID. -/
theorem requestStamping_caches_verbatim_witness :
    lookupCache (requestStamping
      { setOk := fun _ => true, navUpdateOk := true, navFetch := .ok none
        download := .ok [], stampAuthOk := true, stampResult := .ok ⟨"stamp-9", "pending"⟩
        isOAuth2 := false, checkCode := .ok ⟨true, ""⟩
        repoResult := .error "unused" }
      ⟨[], []⟩ [1]
      ⟨"doc-9", "u@x.com", "INV-9", "INV-9.pdf", some ⟨5, 6, 0, 0, 1⟩, none, 2, true, true⟩).1.cache
      (documentKeyPfx ++ "stamp-9")
      = some (.map ⟨"doc-9", "u@x.com", "INV-9", "INV-9.pdf", some ⟨5, 6, 0, 0, 1⟩, none, 2, true, true⟩) :=
  (requestStamping_caches_verbatim _ _ _ _ ⟨"stamp-9", "pending"⟩ rfl rfl rfl).1

/-- C1.  When the cache holds no entry for the webhook's document ID,
`ProcessWebhook` returns the not-found error, leaves the state (cache
and all folders) unchanged, and performs no folder operation (the event
trace is empty). -/
theorem processWebhook_cacheMiss (c : Config) (env : Env) (st : St) (p : WebhookPayload)
    (h : lookupCache st.cache (documentKeyPfx ++ p.id) = none) :
    processWebhook c env st p = (st, [], .error "document not found in Redis") := by
  unfold processWebhook
  rw [h]

/-- C1 witness: a delivery against an empty cache. -/
theorem processWebhook_cacheMiss_witness :
    processWebhook ⟨"d", "r", "p", "f", ""⟩
      { setOk := fun _ => true, navUpdateOk := true, navFetch := .ok none
        download := .ok [], stampAuthOk := true, stampResult := .error "no"
        isOAuth2 := false, checkCode := .ok ⟨true, ""⟩, repoResult := .error "unused" }
      ⟨[], [("d/p", [⟨"x.pdf", false, [1]⟩])]⟩ ⟨"doc-1", "x.pdf", "/u", "completed", "none"⟩
      = (⟨[], [("d/p", [⟨"x.pdf", false, [1]⟩])]⟩, [], .error "document not found in Redis") :=
  processWebhook_cacheMiss _ _ _ _ rfl

/-- On the HMAC (non-OAuth2) signing path with at least one well-formed
signer, `GlobalRequestSign` reduces to the deadline validation followed
by the provider call. -/
theorem globalRequestSign_valid_signing_path (env : Env) (st : St) (req : GlobalSignRequest)
    (henv : env.isOAuth2 = false)
    (hpath : ¬(req.signing = false ∧ req.stamping = true))
    (hne : ¬ req.signers = [])
    (hv : validateSigners 0 req.signers = none) :
    (globalRequestSign env st req).2 =
      match validateDeadline req.documentDeadline with
      | some e => .error e
      | none =>
        match env.repoResult with
        | .error e => .error e
        | .ok resp => .ok { success := true, needAuth := false, redirectURL := ""
                            message := "Document sign request created successfully"
                            data := some resp } := by
  unfold globalRequestSign globalRequestSignCore
  rw [henv]
  simp only [Bool.false_eq_true, false_and, if_false, if_neg hpath, if_neg hne, hv]
  cases hd : validateDeadline req.documentDeadline with
  | some e => simp
  | none =>
    cases hr : env.repoResult with
    | error e => simp
    | ok resp => simp

/-- C6.  On the signing path (HMAC auth so no OAuth gate, not the
stamping-only shortcut, at least one well-formed signer),
`GlobalRequestSign` rejects a document deadline with
`signing_deadline = 2`, accepts `signing_deadline = 3` and `= 31`,
rejects `recurring_reminder = "biweekly"` and accepts `"weekly"`. -/
theorem globalRequestSign_deadline_validation (env : Env) (st : St) (req : GlobalSignRequest)
    (resp : GlobalSignResponse)
    (henv : env.isOAuth2 = false)
    (hpath : ¬(req.signing = false ∧ req.stamping = true))
    (hne : ¬ req.signers = [])
    (hv : validateSigners 0 req.signers = none)
    (hrepo : env.repoResult = .ok resp) :
    ((globalRequestSign env st { req with documentDeadline := some ⟨2, "weekly", 1⟩ }).2
        = .error "signing_deadline must be between 3 and 31") ∧
    ((globalRequestSign env st { req with documentDeadline := some ⟨3, "weekly", 1⟩ }).2
        = .ok { success := true, needAuth := false, redirectURL := ""
                message := "Document sign request created successfully", data := some resp }) ∧
    ((globalRequestSign env st { req with documentDeadline := some ⟨31, "weekly", 1⟩ }).2
        = .ok { success := true, needAuth := false, redirectURL := ""
                message := "Document sign request created successfully", data := some resp }) ∧
    ((globalRequestSign env st { req with documentDeadline := some ⟨0, "biweekly", 0⟩ }).2
        = .error "recurring_reminder must be one of: none, daily, three_days, weekly, monthly") ∧
    ((globalRequestSign env st { req with documentDeadline := some ⟨0, "weekly", 0⟩ }).2
        = .ok { success := true, needAuth := false, redirectURL := ""
                message := "Document sign request created successfully", data := some resp }) := by
  refine ⟨?_, ?_, ?_, ?_, ?_⟩
  · rw [globalRequestSign_valid_signing_path env st
      { req with documentDeadline := some ⟨2, "weekly", 1⟩ } henv hpath hne hv]
    simp [validateDeadline, validReminder]
  · rw [globalRequestSign_valid_signing_path env st
      { req with documentDeadline := some ⟨3, "weekly", 1⟩ } henv hpath hne hv]
    simp [validateDeadline, validReminder, hrepo]
  · rw [globalRequestSign_valid_signing_path env st
      { req with documentDeadline := some ⟨31, "weekly", 1⟩ } henv hpath hne hv]
    simp [validateDeadline, validReminder, hrepo]
  · rw [globalRequestSign_valid_signing_path env st
      { req with documentDeadline := some ⟨0, "biweekly", 0⟩ } henv hpath hne hv]
    simp [validateDeadline, validReminder]
  · rw [globalRequestSign_valid_signing_path env st
      { req with documentDeadline := some ⟨0, "weekly", 0⟩ } henv hpath hne hv]
    simp [validateDeadline, validReminder, hrepo]

/-- C6 witness: a concrete one-signer HMAC request with each of the
five deadline configurations. -/
theorem globalRequestSign_deadline_validation_witness :
    (globalRequestSign
      { setOk := fun _ => true, navUpdateOk := true, navFetch := .ok none
        download := .error "x", stampAuthOk := true, stampResult := .error "x"
        isOAuth2 := false, checkCode := .ok ⟨true, ""⟩
        repoResult := .ok ⟨"d1", "d1", "pending", "f.pdf"⟩ }
      ⟨[], []⟩
      { entryNo := 1, email := "u@x.com", invoiceNumber := "INV-1", signing := true
        stamping := false
        signers := [⟨"A", "a@x.com", "", 0, 1, some ⟨1, 2, 0, 0, 1⟩, false⟩]
        stampPositions := none, documentDeadline := some ⟨2, "weekly", 1⟩ }).2
      = .error "signing_deadline must be between 3 and 31" := by
  have h := globalRequestSign_deadline_validation
    { setOk := fun _ => true, navUpdateOk := true, navFetch := .ok none
      download := .error "x", stampAuthOk := true, stampResult := .error "x"
      isOAuth2 := false, checkCode := .ok ⟨true, ""⟩
      repoResult := .ok ⟨"d1", "d1", "pending", "f.pdf"⟩ }
    ⟨[], []⟩
    { entryNo := 1, email := "u@x.com", invoiceNumber := "INV-1", signing := true
      stamping := false
      signers := [⟨"A", "a@x.com", "", 0, 1, some ⟨1, 2, 0, 0, 1⟩, false⟩]
      stampPositions := none, documentDeadline := none }
    ⟨"d1", "d1", "pending", "f.pdf"⟩ rfl (by decide) (by decide) (by decide) rfl
  exact h.1

/-- C7 counterexample: a request with an empty signer list (a
validation failure per the claim) is answered with HTTP 500, not 400 —
the handler maps every usecase error, validation failures included, to
`500 INTERNAL_ERROR`, and reserves `400` for a body that fails to
parse. -/
theorem handler_validation_failure_is_500 :
    handlerGlobalRequestSign
      { setOk := fun _ => true, navUpdateOk := true, navFetch := .ok none
        download := .error "x", stampAuthOk := true, stampResult := .error "x"
        isOAuth2 := false, checkCode := .ok ⟨true, ""⟩
        repoResult := .ok ⟨"d1", "d1", "pending", "f.pdf"⟩ }
      ⟨[], []⟩
      (some { entryNo := 1, email := "u@x.com", invoiceNumber := "INV-1", signing := true
              stamping := false, signers := [], stampPositions := none
              documentDeadline := none }) = 500 ∧
    ¬ handlerGlobalRequestSign
      { setOk := fun _ => true, navUpdateOk := true, navFetch := .ok none
        download := .error "x", stampAuthOk := true, stampResult := .error "x"
        isOAuth2 := false, checkCode := .ok ⟨true, ""⟩
        repoResult := .ok ⟨"d1", "d1", "pending", "f.pdf"⟩ }
      ⟨[], []⟩
      (some { entryNo := 1, email := "u@x.com", invoiceNumber := "INV-1", signing := true
              stamping := false, signers := [], stampPositions := none
              documentDeadline := none }) = 400 := by
  constructor
  · rfl
  · decide

/-- C7 (amended).  The handler returns 201 when the usecase succeeds,
200 when prior OAuth authorization is required, 400 only when the
request body fails to parse, and 500 for every usecase error — in
particular for the validation failures (empty signer list, malformed
signer, out-of-range deadline). -/
theorem handlerGlobalRequestSign_status_mapping (env : Env) (st : St)
    (req : GlobalSignRequest) (resp : GlobalSignResponse) (cc : CodeCheck) :
    (handlerGlobalRequestSign env st none = 400) ∧
    (env.isOAuth2 = false → ¬(req.signing = false ∧ req.stamping = true) →
      req.signers = [] → handlerGlobalRequestSign env st (some req) = 500) ∧
    (env.isOAuth2 = false → ¬(req.signing = false ∧ req.stamping = true) →
      ¬ req.signers = [] → validateSigners 0 req.signers = none →
      validateDeadline req.documentDeadline = none → env.repoResult = .ok resp →
      handlerGlobalRequestSign env st (some req) = 201) ∧
    (env.isOAuth2 = true → ¬ req.email = "" → env.checkCode = .ok cc →
      cc.hasCode = false → handlerGlobalRequestSign env st (some req) = 200) := by
  refine ⟨rfl, ?_, ?_, ?_⟩
  · intro henv hpath hs
    have hcore : (globalRequestSign env st req).2 = .error "at least one signer is required" := by
      unfold globalRequestSign globalRequestSignCore
      rw [henv]
      simp only [Bool.false_eq_true, false_and, if_false, if_neg hpath, if_pos hs]
    simp only [handlerGlobalRequestSign, hcore]
  · intro henv hpath hne hv hd hrepo
    have hcore := globalRequestSign_valid_signing_path env st req henv hpath hne hv
    rw [hd, hrepo] at hcore
    simp only [handlerGlobalRequestSign, hcore]
    rfl
  · intro henv hemail hcc hhas
    have hcore : (globalRequestSign env st req).2 =
        .ok { success := false, needAuth := true, redirectURL := cc.redirectURL
              message := "Authorization required. Please authorize first.", data := none } := by
      unfold globalRequestSign
      rw [henv]
      simp only [true_and, if_neg hemail, if_true, hcc, hhas]
    simp only [handlerGlobalRequestSign, hcore]
    rfl

/-- C7 amended-claim witness: the concrete status codes on a parse
failure and on an authorization-required OAuth request. -/
theorem handlerGlobalRequestSign_status_mapping_witness :
    handlerGlobalRequestSign
      { setOk := fun _ => true, navUpdateOk := true, navFetch := .ok none
        download := .error "x", stampAuthOk := true, stampResult := .error "x"
        isOAuth2 := true, checkCode := .ok ⟨false, "https://auth"⟩
        repoResult := .error "unused" }
      ⟨[], []⟩ none = 400 ∧
    handlerGlobalRequestSign
      { setOk := fun _ => true, navUpdateOk := true, navFetch := .ok none
        download := .error "x", stampAuthOk := true, stampResult := .error "x"
        isOAuth2 := true, checkCode := .ok ⟨false, "https://auth"⟩
        repoResult := .error "unused" }
      ⟨[], []⟩
      (some { entryNo := 1, email := "u@x.com", invoiceNumber := "INV-1", signing := true
              stamping := false, signers := [], stampPositions := none
              documentDeadline := none }) = 200 := by
  have h := handlerGlobalRequestSign_status_mapping
    { setOk := fun _ => true, navUpdateOk := true, navFetch := .ok none
      download := .error "x", stampAuthOk := true, stampResult := .error "x"
      isOAuth2 := true, checkCode := .ok ⟨false, "https://auth"⟩
      repoResult := .error "unused" }
    ⟨[], []⟩
    { entryNo := 1, email := "u@x.com", invoiceNumber := "INV-1", signing := true
      stamping := false, signers := [], stampPositions := none, documentDeadline := none }
    ⟨"d", "d", "p", "f"⟩ ⟨false, "https://auth"⟩
  exact ⟨h.1, h.2.2.2 rfl (by decide) rfl rfl⟩

/-- The find loop is the first-match search for the combined
entry predicate. -/
theorem findLoop_eq_find? (ext inv : String) (files : Dir) :
    findLoop ext inv files = (files.find? (fileMatches ext inv)).map DirEntry.name := by
  induction files with
  | nil => simp [findLoop]
  | cons e rest ih =>
    by_cases h1 : e.isDir
    · have hm : fileMatches ext inv e = false := by simp [fileMatches, h1]
      rw [List.find?_cons_of_neg _ (by simp [hm])]
      simpa [findLoop, h1] using ih
    · by_cases h2 : strHasSuffix (strToLower e.name) (strToLower ext) = true
      · by_cases h3 : strContains e.name inv = true
        · have hm : fileMatches ext inv e = true := by simp [fileMatches, h1, h2, h3]
          rw [List.find?_cons_of_pos _ hm]
          simp [findLoop, h1, h2, h3]
        · have hm : fileMatches ext inv e = false := by
            simp [fileMatches, h1, h2]
            simpa using h3
          rw [List.find?_cons_of_neg _ (by simp [hm])]
          simpa [findLoop, h1, h2, h3] using ih
      · have hm : fileMatches ext inv e = false := by
          simp [fileMatches, h1]
          intro hc
          exact absurd hc h2
        rw [List.find?_cons_of_neg _ (by simp [hm])]
        simpa [findLoop, h1, h2] using ih

/-- First-match decomposition of `List.find?` (by entry name). -/
theorem find?_name_first_iff (p : DirEntry → Bool) (l : List DirEntry) (name : String) :
    (l.find? p).map DirEntry.name = some name ↔
      ∃ pre e suf, l = pre ++ e :: suf ∧ p e = true ∧ e.name = name ∧
        ∀ g ∈ pre, p g = false := by
  induction l with
  | nil => simp
  | cons a l ih =>
    by_cases hp : p a
    · rw [List.find?_cons_of_pos _ hp]
      constructor
      · intro h
        simp only [Option.map_some'] at h
        injection h with h
        exact ⟨[], a, l, rfl, hp, h, by simp⟩
      · rintro ⟨pre, e, suf, hl, hpe, hn, hpre⟩
        cases pre with
        | nil =>
          rw [List.nil_append] at hl
          injection hl with hae hls
          subst hae
          simp [hn]
        | cons b pre' =>
          rw [List.cons_append] at hl
          injection hl with hab hls
          subst hab
          have := hpre a (by simp)
          rw [this] at hp
          exact absurd hp (by simp)
    · have hpf : p a = false := by revert hp; cases p a <;> simp
      rw [List.find?_cons_of_neg _ (by simp [hpf])]
      rw [ih]
      constructor
      · rintro ⟨pre, e, suf, hl, hpe, hn, hpre⟩
        refine ⟨a :: pre, e, suf, by rw [List.cons_append, hl], hpe, hn, ?_⟩
        intro g hg
        rcases List.mem_cons.mp hg with hg | hg
        · subst hg; exact hpf
        · exact hpre g hg
      · rintro ⟨pre, e, suf, hl, hpe, hn, hpre⟩
        cases pre with
        | nil =>
          rw [List.nil_append] at hl
          injection hl with hae hls
          subst hae
          rw [hpe] at hpf
          exact absurd hpf (by simp)
        | cons b pre' =>
          rw [List.cons_append] at hl
          injection hl with hab hls
          subst hab
          exact ⟨pre', e, suf, hls, hpe, hn, fun g hg => hpre g (by simp [hg])⟩

/-- The find loop returns nothing exactly when no listed entry
matches. -/
theorem findLoop_eq_none_iff (ext inv : String) (files : Dir) :
    findLoop ext inv files = none ↔ ∀ e ∈ files, fileMatches ext inv e = false := by
  rw [findLoop_eq_find?]
  constructor
  · intro h e he
    cases hf : files.find? (fileMatches ext inv) with
    | none =>
      have := List.find?_eq_none.mp hf e he
      revert this
      cases fileMatches ext inv e <;> simp
    | some x => rw [hf] at h; exact absurd h (by simp)
  · intro h
    rw [List.find?_eq_none.mpr]
    · rfl
    · intro x hx
      rw [h x hx]
      simp

/-- C8.  The folder-manager find operation returns the name of the
first entry in directory-listing order that is not a subdirectory, has
the expected extension case-insensitively, and contains the invoice
number as a substring; when no listed entry matches, the search comes
back empty and both `FindFilenameInProgress` and
`FindDocumentByInvoiceNumber` fail with their not-found errors. -/
theorem findLoop_first_match_spec (ext inv : String) (files : Dir) :
    (∀ name, findLoop ext inv files = some name ↔
      ∃ pre e suf, files = pre ++ e :: suf ∧ fileMatches ext inv e = true ∧
        e.name = name ∧ ∀ g ∈ pre, fileMatches ext inv g = false) ∧
    (findLoop ext inv files = none ↔ ∀ e ∈ files, fileMatches ext inv e = false) ∧
    (∀ (c : Config) (fsx : FileSys),
      lookupDir fsx (progressPathCfg c) = some files →
      (∀ e ∈ files, fileMatches (extOrDefault c) inv e = false) →
      findFilenameInProgress c fsx inv
        = .error ("document not found in progress for invoice number: " ++ inv)) ∧
    (∀ (c : Config) (fsx : FileSys),
      lookupDir fsx (readyPathCfg c) = some files →
      (∀ e ∈ files, fileMatches (extOrDefault c) inv e = false) →
      findDocumentByInvoiceNumber c fsx inv
        = .error ("document not found for invoice number: " ++ inv)) := by
  refine ⟨?_, findLoop_eq_none_iff ext inv files, ?_, ?_⟩
  · intro name
    rw [findLoop_eq_find?]
    exact find?_name_first_iff (fileMatches ext inv) files name
  · intro c fsx hlk hnone
    simp only [findFilenameInProgress, findFilenameInDir, hlk,
      (findLoop_eq_none_iff (extOrDefault c) inv files).mpr hnone]
  · intro c fsx hlk hnone
    simp only [findDocumentByInvoiceNumber, hlk,
      (findLoop_eq_none_iff (extOrDefault c) inv files).mpr hnone]

/-- C8 witness: on a listing with a subdirectory, a wrong-extension
file and two matches, the first matching name is returned; a
non-matching invoice yields nothing. -/
theorem findLoop_first_match_witness :
    findLoop ".pdf" "INV-2" [⟨"INV-2", true, []⟩, ⟨"INV-2.txt", false, []⟩,
      ⟨"aINV-2b.PDF", false, [1]⟩, ⟨"INV-2.pdf", false, [2]⟩] = some "aINV-2b.PDF" ∧
    findLoop ".pdf" "INV-3" [⟨"INV-2.pdf", false, [2]⟩] = none := by
  constructor
  · exact (findLoop_first_match_spec ".pdf" "INV-2" _).1 "aINV-2b.PDF" |>.mpr
      ⟨[⟨"INV-2", true, []⟩, ⟨"INV-2.txt", false, []⟩], ⟨"aINV-2b.PDF", false, [1]⟩,
        [⟨"INV-2.pdf", false, [2]⟩], rfl, by decide, rfl, by decide⟩
  · exact (findLoop_first_match_spec ".pdf" "INV-3" _).2.1.mpr (by decide)

/-! ## Webhook phase lemmas -/

theorem navFetchAndCache_fs (env : Env) (st : St) (key : String) :
    (navFetchAndCache env st key).1.fs = st.fs := by
  unfold navFetchAndCache
  cases env.navFetch with
  | error e => rfl
  | ok os =>
    cases os with
    | none => rfl
    | some s =>
      dsimp only
      split <;> rfl

theorem getNAVSetupCached_fs (env : Env) (st : St) (e : Int) :
    (getNAVSetupCached env st e).1.fs = st.fs := by
  unfold getNAVSetupCached
  dsimp only
  cases hl : lookupCache st.cache (navSetupKeyPfx ++ toString e) with
  | none => exact navFetchAndCache_fs env st _
  | some v =>
    cases v with
    | nav s => rfl
    | str s => exact navFetchAndCache_fs env st _
    | map m => exact navFetchAndCache_fs env st _
    | info d => exact navFetchAndCache_fs env st _

theorem sendNAVLogEntry_fs (env : Env) (st : St) (m : DocumentMapping) :
    (sendNAVLogEntry env st m).1.fs = st.fs := by
  have hg := getNAVSetupCached_fs env st m.entryNo
  cases h : getNAVSetupCached env st m.entryNo with
  | mk a b =>
    rw [h] at hg
    simpa [sendNAVLogEntry, h] using hg

theorem webhookPrelude_fs (env : Env) (st : St) (p : WebhookPayload)
    (m : DocumentMapping) (i : String) : (webhookPrelude env st p m i).1.fs = st.fs := by
  unfold webhookPrelude
  dsimp only
  rw [getNAVSetupCached_fs, sendNAVLogEntry_fs]

theorem requestStamping_fs (env : Env) (st : St) (b : Bytes) (m : DocumentMapping) :
    (requestStamping env st b m).1.fs = st.fs := by
  unfold requestStamping
  split
  · rfl
  · dsimp only
    split
    · rfl
    · split <;> rfl

theorem requestStamping_trace (env : Env) (st : St) (b : Bytes) (m : DocumentMapping)
    (hauth : env.stampAuthOk = true) :
    (requestStamping env st b m).2.1
      = [Ev.stampRequested m.filename (stampAnnotationsOf m) b] := by
  unfold requestStamping
  rw [if_neg (by simp [hauth])]
  dsimp only
  split <;> rfl

theorem stampingPhase_skip (c : Config) (env : Env) (st : St) (p : WebhookPayload)
    (m : DocumentMapping) (pp fp : String) (h : ¬ p.stampingStatus = "success") :
    stampingPhase c env st p m pp fp = (st, [], .ok ()) := by
  unfold stampingPhase
  rw [if_neg h]

theorem stampingPhase_success (c : Config) (env : Env) (st : St) (p : WebhookPayload)
    (m : DocumentMapping) (pp fp : String) (bytes : Bytes)
    (hst : p.stampingStatus = "success") (hdl : env.download = .ok bytes) :
    stampingPhase c env st p m pp fp =
      (let save :=
        if fp ≠ "" ∧ pp ≠ "" then
          saveToFinishAndDeleteProgressWithPath st.fs
            (if m.filename = "" then p.filename else m.filename) bytes fp pp
        else
          saveToFinishAndDeleteProgress c st.fs
            (if m.filename = "" then p.filename else m.filename) bytes
       ({ st with fs := save.1 }, save.2.1, save.2.2)) := by
  unfold stampingPhase
  rw [if_pos hst, hdl]

theorem signingPhase_skip (c : Config) (env : Env) (st : St) (p : WebhookPayload)
    (m : DocumentMapping) (inv pp : String)
    (h : ¬ (p.signingStatus = "completed" ∧ ¬ p.stampingStatus = "success")) :
    signingPhase c env st p m inv pp = (st, [], .ok ()) := by
  unfold signingPhase
  rw [if_neg h]

theorem signingPhase_stamp_branch (c : Config) (env : Env) (st : St) (p : WebhookPayload)
    (m : DocumentMapping) (inv pp : String) (signed : Bytes)
    (hsig : p.signingStatus = "completed") (hstamp : ¬ p.stampingStatus = "success")
    (hdl : env.download = .ok signed)
    (hg : p.stampingStatus = "none" ∧ m.stampPositions ≠ none ∧ m.stamping = true) :
    signingPhase c env st p m inv pp =
      ((requestStamping env
          { st with fs := (replaceDocumentInProgress c st.fs inv signed pp).1 } signed m).1,
       (replaceDocumentInProgress c st.fs inv signed pp).2.1
         ++ (requestStamping env
          { st with fs := (replaceDocumentInProgress c st.fs inv signed pp).1 } signed m).2.1,
       .ok ()) := by
  unfold signingPhase
  rw [if_pos ⟨hsig, hstamp⟩, hdl]
  dsimp only
  rw [if_pos hg]

theorem signingPhase_plain_branch (c : Config) (env : Env) (st : St) (p : WebhookPayload)
    (m : DocumentMapping) (inv pp : String) (signed : Bytes)
    (hsig : p.signingStatus = "completed") (hstamp : ¬ p.stampingStatus = "success")
    (hdl : env.download = .ok signed)
    (hg : ¬ (p.stampingStatus = "none" ∧ m.stampPositions ≠ none ∧ m.stamping = true)) :
    signingPhase c env st p m inv pp =
      ({ st with fs := (replaceDocumentInProgress c st.fs inv signed pp).1 },
       (replaceDocumentInProgress c st.fs inv signed pp).2.1, .ok ()) := by
  unfold signingPhase
  rw [if_pos ⟨hsig, hstamp⟩, hdl]
  dsimp only
  rw [if_neg hg]

theorem findFilenameInDir_ok_dirExists (fs : FileSys) (d ext inv name : String)
    (h : findFilenameInDir fs d ext inv = .ok name) : lookupDir fs d ≠ none := by
  unfold findFilenameInDir at h
  cases hd : lookupDir fs d with
  | none =>
    rw [hd] at h
    exact absurd h (by simp)
  | some dir => simp

theorem replaceDoc_spec (c : Config) (fs : FileSys) (inv : String) (content : Bytes)
    (pp name : String)
    (hfind : findFilenameInDir fs (if pp ≠ "" then pp else progressPathCfg c)
      (extOrDefault c) inv = .ok name) :
    (replaceDocumentInProgress c fs inv content pp).2.1
      = [Ev.replacedInProgress (if pp ≠ "" then pp else progressPathCfg c) name content] ∧
    readFile (replaceDocumentInProgress c fs inv content pp).1
      (if pp ≠ "" then pp else progressPathCfg c) name = some content := by
  obtain ⟨fs', hw⟩ := writeFile_isSome fs (if pp ≠ "" then pp else progressPathCfg c)
    name content (findFilenameInDir_ok_dirExists _ _ _ _ _ hfind)
  have hred : replaceDocumentInProgress c fs inv content pp
      = (fs', [Ev.replacedInProgress (if pp ≠ "" then pp else progressPathCfg c) name content],
         .ok ()) := by
    unfold replaceDocumentInProgress replaceFileInDir
    dsimp only
    simp only [hfind, hw]
  rw [hred]
  exact ⟨rfl, readFile_writeFile_self fs fs' _ name content hw⟩

theorem replaceDoc_no_stamp (c : Config) (fs : FileSys) (inv : String) (content : Bytes)
    (pp : String) (f : String) (a : List StampAnnotation) (d : Bytes) :
    Ev.stampRequested f a d ∉ (replaceDocumentInProgress c fs inv content pp).2.1 := by
  unfold replaceDocumentInProgress
  dsimp only
  split
  · simp
  · unfold replaceFileInDir
    split <;> simp

theorem saveDirs_no_stamp (fs : FileSys) (fdir pdir name : String) (content : Bytes)
    (f : String) (a : List StampAnnotation) (d : Bytes) :
    Ev.stampRequested f a d ∉ (saveToFinishAndDeleteProgressDirs fs fdir pdir name content).2.1 := by
  unfold saveToFinishAndDeleteProgressDirs
  split
  · simp
  · split <;> simp

/-- `ProcessWebhook` decomposed into its prelude, signing phase and
stamping phase, given a cache hit and a successful snapshot write. -/
theorem processWebhook_eq (c : Config) (env : Env) (st : St) (p : WebhookPayload) (v : RVal)
    (hv : lookupCache st.cache (documentKeyPfx ++ p.id) = some v)
    (hset : env.setOk (documentInfoKeyPfx ++ p.id) = true) :
    processWebhook c env st p =
      (let mapping := parseMapping v
       let inv := webhookInvoice p mapping
       let pr := webhookPrelude env st p mapping inv
       let pp := navProgressPath pr.2
       let fp := navFinishPath pr.2
       let sp := signingPhase c env pr.1 p mapping inv pp
       match sp.2.2 with
       | .error e => (sp.1, sp.2.1, .error e)
       | .ok _ =>
         let tp := stampingPhase c env sp.1 p mapping pp fp
         match tp.2.2 with
         | .error e => (tp.1, sp.2.1 ++ tp.2.1, .error e)
         | .ok _ => (tp.1, sp.2.1 ++ tp.2.1, .ok ())) := by
  unfold processWebhook
  simp only [hv, hset]
  rfl

theorem signingPhase_dl_error (c : Config) (env : Env) (st : St) (p : WebhookPayload)
    (m : DocumentMapping) (inv pp : String) (e : String)
    (hsig : p.signingStatus = "completed" ∧ ¬ p.stampingStatus = "success")
    (hdl : env.download = .error e) :
    signingPhase c env st p m inv pp = (st, [], .error "failed to download signed document") := by
  unfold signingPhase
  rw [if_pos hsig, hdl]

theorem stampingPhase_dl_error (c : Config) (env : Env) (st : St) (p : WebhookPayload)
    (m : DocumentMapping) (pp fp : String) (e : String)
    (hst : p.stampingStatus = "success") (hdl : env.download = .error e) :
    stampingPhase c env st p m pp fp = (st, [], .error "failed to download final document") := by
  unfold stampingPhase
  rw [if_pos hst, hdl]

/-- C2.  For a delivery with `signing_status = "completed"` and
`stamping_status ≠ "success"` (with a cache hit, a successful snapshot
write, a successful download, and auth headers prepared):
a stamp request appears in the trace iff `stamping_status = "none"`,
the mapping has stamp positions and its stamping flag is set; in that
case, when the progress-folder search finds a file, the trace is
exactly the replacement of that file with the signed bytes followed by
the stamp request (so the replace precedes the request) and the
replaced file holds the signed bytes; and the result is success
regardless of the stamp-request outcome (`env.stampResult` is
unconstrained), so a stamp-request failure never fails the webhook. -/
theorem processWebhook_signingCompleted (c : Config) (env : Env) (st : St)
    (p : WebhookPayload) (v : RVal) (signed : Bytes)
    (hv : lookupCache st.cache (documentKeyPfx ++ p.id) = some v)
    (hset : env.setOk (documentInfoKeyPfx ++ p.id) = true)
    (hsig : p.signingStatus = "completed")
    (hstamp : ¬ p.stampingStatus = "success")
    (hdl : env.download = .ok signed)
    (hauth : env.stampAuthOk = true) :
    (processWebhook c env st p).2.2 = .ok () ∧
    ((∃ f a d, Ev.stampRequested f a d ∈ (processWebhook c env st p).2.1) ↔
      (p.stampingStatus = "none" ∧ (parseMapping v).stampPositions ≠ none ∧
        (parseMapping v).stamping = true)) ∧
    (∀ name, (p.stampingStatus = "none" ∧ (parseMapping v).stampPositions ≠ none ∧
        (parseMapping v).stamping = true) →
      findFilenameInDir st.fs (webhookReplaceDir c env st p v) (extOrDefault c)
        (webhookInvoice p (parseMapping v)) = .ok name →
      (processWebhook c env st p).2.1
        = [Ev.replacedInProgress (webhookReplaceDir c env st p v) name signed,
           Ev.stampRequested (parseMapping v).filename
             (stampAnnotationsOf (parseMapping v)) signed] ∧
      readFile (processWebhook c env st p).1.fs (webhookReplaceDir c env st p v) name
        = some signed) := by
  rw [processWebhook_eq c env st p v hv hset]
  dsimp only
  by_cases hg : (p.stampingStatus = "none" ∧ (parseMapping v).stampPositions ≠ none ∧
      (parseMapping v).stamping = true)
  · rw [signingPhase_stamp_branch c env _ p _ _ _ signed hsig hstamp hdl hg]
    dsimp only
    rw [stampingPhase_skip c env _ p _ _ _ hstamp]
    dsimp only
    rw [requestStamping_trace env _ signed _ hauth, requestStamping_fs, webhookPrelude_fs]
    refine ⟨rfl, ?_, ?_⟩
    · constructor
      · intro _
        exact hg
      · intro _
        exact ⟨(parseMapping v).filename, stampAnnotationsOf (parseMapping v), signed, by simp⟩
    · intro name _ hfind
      obtain ⟨ht, hr⟩ := replaceDoc_spec c st.fs (webhookInvoice p (parseMapping v)) signed
        (navProgressPath (webhookPrelude env st p (parseMapping v)
          (webhookInvoice p (parseMapping v))).2) name hfind
      constructor
      · rw [List.append_nil, ht]
        rfl
      · exact hr
  · rw [signingPhase_plain_branch c env _ p _ _ _ signed hsig hstamp hdl hg]
    dsimp only
    rw [stampingPhase_skip c env _ p _ _ _ hstamp]
    dsimp only
    rw [webhookPrelude_fs]
    refine ⟨rfl, ?_, ?_⟩
    · constructor
      · rintro ⟨f, a, d, hmem⟩
        try simp only [List.append_nil] at hmem
        exact absurd hmem (replaceDoc_no_stamp c st.fs _ signed _ f a d)
      · intro hgg
        exact absurd hgg hg
    · intro name hgg _
      exact absurd hgg hg

/-- C2 witness: a concrete delivery with stamping still pending — the
trace is exactly the progress-folder replacement followed by the stamp
request, and the result is success even though the stamp request itself
fails. -/
theorem processWebhook_signingCompleted_witness :
    (processWebhook ⟨"d", "r", "p", "f", ""⟩
      { setOk := fun _ => true, navUpdateOk := true, navFetch := .ok none
        download := .ok [9], stampAuthOk := true, stampResult := .error "boom"
        isOAuth2 := false, checkCode := .ok ⟨true, ""⟩, repoResult := .error "unused" }
      ⟨[("mekari:document:doc-1",
          .map ⟨"doc-1", "u@x.com", "INV-1", "INV-1.pdf", some ⟨1, 2, 0, 0, 1⟩, none, 7, true, true⟩)],
        [("d/p", [⟨"INV-1.pdf", false, [1]⟩])]⟩
      ⟨"doc-1", "INV-1.pdf", "/u", "completed", "none"⟩).2.2 = .ok () ∧
    (processWebhook ⟨"d", "r", "p", "f", ""⟩
      { setOk := fun _ => true, navUpdateOk := true, navFetch := .ok none
        download := .ok [9], stampAuthOk := true, stampResult := .error "boom"
        isOAuth2 := false, checkCode := .ok ⟨true, ""⟩, repoResult := .error "unused" }
      ⟨[("mekari:document:doc-1",
          .map ⟨"doc-1", "u@x.com", "INV-1", "INV-1.pdf", some ⟨1, 2, 0, 0, 1⟩, none, 7, true, true⟩)],
        [("d/p", [⟨"INV-1.pdf", false, [1]⟩])]⟩
      ⟨"doc-1", "INV-1.pdf", "/u", "completed", "none"⟩).2.1
      = [Ev.replacedInProgress "d/p" "INV-1.pdf" [9],
         Ev.stampRequested "INV-1.pdf"
           [⟨1, 1, 2, 80, 80, 595, 841, "meterai"⟩] [9]] := by
  have h := processWebhook_signingCompleted ⟨"d", "r", "p", "f", ""⟩
    { setOk := fun _ => true, navUpdateOk := true, navFetch := .ok none
      download := .ok [9], stampAuthOk := true, stampResult := .error "boom"
      isOAuth2 := false, checkCode := .ok ⟨true, ""⟩, repoResult := .error "unused" }
    ⟨[("mekari:document:doc-1",
        .map ⟨"doc-1", "u@x.com", "INV-1", "INV-1.pdf", some ⟨1, 2, 0, 0, 1⟩, none, 7, true, true⟩)],
      [("d/p", [⟨"INV-1.pdf", false, [1]⟩])]⟩
    ⟨"doc-1", "INV-1.pdf", "/u", "completed", "none"⟩
    (.map ⟨"doc-1", "u@x.com", "INV-1", "INV-1.pdf", some ⟨1, 2, 0, 0, 1⟩, none, 7, true, true⟩)
    [9] rfl rfl rfl (by decide) rfl rfl
  exact ⟨h.1, ((h.2.2 "INV-1.pdf" ⟨rfl, by decide, rfl⟩ rfl).1)⟩

/-- C3.  For a delivery with `stamping_status = "success"` and a
resolvable mapping (plus a successful snapshot write and download),
`ProcessWebhook` succeeds and the downloaded bytes end up in the finish
directory under the mapping's filename — the webhook-supplied filename
when the mapping lacks one — while the progress-directory copy is
gone.  `fdir`/`pdir` are the finish/progress directories the save
resolves to (ERP-supplied when both are present, configured otherwise),
assumed distinct and with the finish directory present. -/
theorem processWebhook_stampingSuccess (c : Config) (env : Env) (st : St)
    (p : WebhookPayload) (v : RVal) (bytes : Bytes) (fdir pdir fname : String)
    (hv : lookupCache st.cache (documentKeyPfx ++ p.id) = some v)
    (hset : env.setOk (documentInfoKeyPfx ++ p.id) = true)
    (hst : p.stampingStatus = "success")
    (hdl : env.download = .ok bytes)
    (hdirs : webhookSaveDirs c env st p v = (fdir, pdir))
    (hname : (if (parseMapping v).filename = "" then p.filename
              else (parseMapping v).filename) = fname)
    (hne : fdir ≠ pdir)
    (hfd : lookupDir st.fs fdir ≠ none) :
    (processWebhook c env st p).2.2 = .ok () ∧
    readFile (processWebhook c env st p).1.fs fdir fname = some bytes ∧
    readFile (processWebhook c env st p).1.fs pdir fname = none := by
  rw [processWebhook_eq c env st p v hv hset]
  dsimp only
  have hns : ¬ (p.signingStatus = "completed" ∧ ¬ p.stampingStatus = "success") :=
    fun h => h.2 hst
  rw [signingPhase_skip c env _ p _ _ _ hns]
  dsimp only
  rw [stampingPhase_success c env _ p _ _ _ bytes hst hdl]
  dsimp only
  rw [webhookPrelude_fs, hname]
  unfold webhookSaveDirs at hdirs
  dsimp only at hdirs
  by_cases hc : (navFinishPath (webhookPrelude env st p (parseMapping v)
        (webhookInvoice p (parseMapping v))).2 ≠ "" ∧
      navProgressPath (webhookPrelude env st p (parseMapping v)
        (webhookInvoice p (parseMapping v))).2 ≠ "")
  · rw [if_pos hc] at hdirs
    rw [if_pos hc]
    injection hdirs with h1 h2
    subst h1
    subst h2
    unfold saveToFinishAndDeleteProgressWithPath
    have hs := saveDirs_spec st.fs _ _ fname bytes hfd hne
    rw [hs.1]
    dsimp only
    exact ⟨rfl, hs.2.1, hs.2.2.1⟩
  · rw [if_neg hc] at hdirs
    rw [if_neg hc]
    injection hdirs with h1 h2
    subst h1
    subst h2
    unfold saveToFinishAndDeleteProgress
    have hs := saveDirs_spec st.fs _ _ fname bytes hfd hne
    rw [hs.1]
    dsimp only
    exact ⟨rfl, hs.2.1, hs.2.2.1⟩

/-- C3 witness: a concrete stamping-success delivery moves the
downloaded bytes into the finish directory under the mapping's original
filename and removes the progress copy. -/
theorem processWebhook_stampingSuccess_witness :
    (processWebhook ⟨"d", "r", "p", "f", ""⟩
      { setOk := fun _ => true, navUpdateOk := true, navFetch := .ok none
        download := .ok [5], stampAuthOk := true, stampResult := .error "unused"
        isOAuth2 := false, checkCode := .ok ⟨true, ""⟩, repoResult := .error "unused" }
      ⟨[("mekari:document:doc-1",
          .map ⟨"doc-1", "u@x.com", "INV-1", "INV-1.pdf", none, none, 7, true, true⟩)],
        [("d/p", [⟨"INV-1.pdf", false, [1]⟩]), ("d/f", [])]⟩
      ⟨"doc-1", "other.pdf", "/u", "completed", "success"⟩).2.2 = .ok () ∧
    readFile (processWebhook ⟨"d", "r", "p", "f", ""⟩
      { setOk := fun _ => true, navUpdateOk := true, navFetch := .ok none
        download := .ok [5], stampAuthOk := true, stampResult := .error "unused"
        isOAuth2 := false, checkCode := .ok ⟨true, ""⟩, repoResult := .error "unused" }
      ⟨[("mekari:document:doc-1",
          .map ⟨"doc-1", "u@x.com", "INV-1", "INV-1.pdf", none, none, 7, true, true⟩)],
        [("d/p", [⟨"INV-1.pdf", false, [1]⟩]), ("d/f", [])]⟩
      ⟨"doc-1", "other.pdf", "/u", "completed", "success"⟩).1.fs "d/f" "INV-1.pdf"
      = some [5] ∧
    readFile (processWebhook ⟨"d", "r", "p", "f", ""⟩
      { setOk := fun _ => true, navUpdateOk := true, navFetch := .ok none
        download := .ok [5], stampAuthOk := true, stampResult := .error "unused"
        isOAuth2 := false, checkCode := .ok ⟨true, ""⟩, repoResult := .error "unused" }
      ⟨[("mekari:document:doc-1",
          .map ⟨"doc-1", "u@x.com", "INV-1", "INV-1.pdf", none, none, 7, true, true⟩)],
        [("d/p", [⟨"INV-1.pdf", false, [1]⟩]), ("d/f", [])]⟩
      ⟨"doc-1", "other.pdf", "/u", "completed", "success"⟩).1.fs "d/p" "INV-1.pdf"
      = none :=
  processWebhook_stampingSuccess ⟨"d", "r", "p", "f", ""⟩
    { setOk := fun _ => true, navUpdateOk := true, navFetch := .ok none
      download := .ok [5], stampAuthOk := true, stampResult := .error "unused"
      isOAuth2 := false, checkCode := .ok ⟨true, ""⟩, repoResult := .error "unused" }
    ⟨[("mekari:document:doc-1",
        .map ⟨"doc-1", "u@x.com", "INV-1", "INV-1.pdf", none, none, 7, true, true⟩)],
      [("d/p", [⟨"INV-1.pdf", false, [1]⟩]), ("d/f", [])]⟩
    ⟨"doc-1", "other.pdf", "/u", "completed", "success"⟩
    (.map ⟨"doc-1", "u@x.com", "INV-1", "INV-1.pdf", none, none, 7, true, true⟩)
    [5] "d/f" "d/p" "INV-1.pdf" rfl rfl rfl rfl rfl rfl (by decide) (by decide)

theorem requestStamping_no_stamp_of_auth_fail (env : Env) (st : St) (b : Bytes)
    (m : DocumentMapping) (f : String) (a : List StampAnnotation) (d : Bytes)
    (h : ¬ env.stampAuthOk = true) :
    Ev.stampRequested f a d ∉ (requestStamping env st b m).2.1 := by
  unfold requestStamping
  rw [if_pos h]
  simp

theorem signingPhase_no_stamp (c : Config) (env : Env) (st : St) (p : WebhookPayload)
    (m : DocumentMapping) (inv pp : String) (f : String) (a : List StampAnnotation)
    (d : Bytes) (h : m.stampPositions = none) :
    Ev.stampRequested f a d ∉ (signingPhase c env st p m inv pp).2.1 := by
  unfold signingPhase
  split
  · split
    · simp
    · dsimp only
      split
      · next hguard =>
        exact absurd h hguard.2.1
      · dsimp only
        exact replaceDoc_no_stamp c st.fs inv _ pp f a d
  · simp

theorem stampingPhase_no_stamp (c : Config) (env : Env) (st : St) (p : WebhookPayload)
    (m : DocumentMapping) (pp fp : String) (f : String) (a : List StampAnnotation)
    (d : Bytes) :
    Ev.stampRequested f a d ∉ (stampingPhase c env st p m pp fp).2.1 := by
  unfold stampingPhase
  by_cases hst : p.stampingStatus = "success"
  · rw [if_pos hst]
    dsimp only
    cases env.download with
    | error e => simp
    | ok bytes =>
      dsimp only
      by_cases hcond : (fp ≠ "" ∧ pp ≠ "")
      · rw [if_pos hcond]
        exact saveDirs_no_stamp _ _ _ _ _ f a d
      · rw [if_neg hcond]
        exact saveDirs_no_stamp _ _ _ _ _ f a d
  · rw [if_neg hst]
    simp

/-- C10.  A cached raw-string value (not valid JSON for a
`DocumentMapping`) makes neither `GetDocumentMapping` nor the webhook
processor fail: both fall back to a legacy mapping whose only populated
field is `Email` (every other field empty/zero), and a delivery
resolving such an entry can never issue a stamp request (the fallback
has no stamp positions). -/
theorem legacyMapping_fallback (c : Config) (env : Env) (st : St) (p : WebhookPayload)
    (s : String)
    (hv : lookupCache st.cache (documentKeyPfx ++ p.id) = some (.str s)) :
    getDocumentMapping st p.id
      = .ok ⟨"", s, "", "", none, none, 0, false, false⟩ ∧
    parseMapping (.str s) = { emptyMapping with email := s } ∧
    ∀ f a d, Ev.stampRequested f a d ∉ (processWebhook c env st p).2.1 := by
  refine ⟨?_, rfl, ?_⟩
  · unfold getDocumentMapping
    simp only [hv]
    rfl
  · intro f a d
    by_cases hset : env.setOk (documentInfoKeyPfx ++ p.id) = true
    · rw [processWebhook_eq c env st p _ hv hset]
      dsimp only
      split
      · dsimp only
        exact signingPhase_no_stamp c env _ p _ _ _ f a d rfl
      · split
        · dsimp only
          intro hmem
          rcases List.mem_append.mp hmem with hmem | hmem
          · exact absurd hmem (signingPhase_no_stamp c env _ p _ _ _ f a d rfl)
          · exact absurd hmem (stampingPhase_no_stamp c env _ p _ _ _ f a d)
        · dsimp only
          intro hmem
          rcases List.mem_append.mp hmem with hmem | hmem
          · exact absurd hmem (signingPhase_no_stamp c env _ p _ _ _ f a d rfl)
          · exact absurd hmem (stampingPhase_no_stamp c env _ p _ _ _ f a d)
    · have hf : env.setOk (documentInfoKeyPfx ++ p.id) = false := by
        revert hset
        cases env.setOk (documentInfoKeyPfx ++ p.id) <;> simp
      simp [processWebhook, hv, hf]

/-- C10 witness: a concrete legacy cache entry holding a raw email
string resolves to the email-only mapping and a completed-signing
delivery for it issues no stamp request. -/
theorem legacyMapping_fallback_witness :
    getDocumentMapping
      ⟨[("mekari:document:doc-1", .str "user@example.com")],
        [("d/p", [⟨"x.pdf", false, [1]⟩])]⟩ "doc-1"
      = .ok ⟨"", "user@example.com", "", "", none, none, 0, false, false⟩ ∧
    ∀ f a d, Ev.stampRequested f a d ∉
      (processWebhook ⟨"d", "r", "p", "f", ""⟩
        { setOk := fun _ => true, navUpdateOk := true, navFetch := .ok none
          download := .ok [3], stampAuthOk := true, stampResult := .ok ⟨"sd", "ok"⟩
          isOAuth2 := false, checkCode := .ok ⟨true, ""⟩, repoResult := .error "unused" }
        ⟨[("mekari:document:doc-1", .str "user@example.com")],
          [("d/p", [⟨"x.pdf", false, [1]⟩])]⟩
        ⟨"doc-1", "x.pdf", "/u", "completed", "none"⟩).2.1 := by
  have h := legacyMapping_fallback ⟨"d", "r", "p", "f", ""⟩
    { setOk := fun _ => true, navUpdateOk := true, navFetch := .ok none
      download := .ok [3], stampAuthOk := true, stampResult := .ok ⟨"sd", "ok"⟩
      isOAuth2 := false, checkCode := .ok ⟨true, ""⟩, repoResult := .error "unused" }
    ⟨[("mekari:document:doc-1", .str "user@example.com")],
      [("d/p", [⟨"x.pdf", false, [1]⟩])]⟩
    ⟨"doc-1", "x.pdf", "/u", "completed", "none"⟩ "user@example.com" rfl
  exact ⟨h.1, h.2.2⟩

end MekariEsign
